import Mathlib

set_option maxRecDepth 40000

/-!
Verification of the error-classification and revert-decoding engine of the
ready-aim-fire relayer (src/src/allAbis.ts `ErrorHandler`, src/src/utils/decode.ts).

The TypeScript handler operates on JavaScript values (strings, bigints, booleans,
objects).  We shallow-embed the JS value universe as `JsValue`, hex byte strings
as Lean `String`s manipulated through their character lists, and byte buffers as
`List Nat` (each element a byte < 256, enforced where it matters).  Fallible
operations return `Option`.  Functions named after source symbols are translated
from the source; the ABI coders, the interface registry data and viem's error
walk are not in src/ and are modelled from the spec (their doc comments say so).
-/

/-- JavaScript values as observed by the error handler: the handler inspects
`typeof v === 'string'`, `startsWith('0x')`, `.length`, truthiness and objects
carrying a `data` field.  Decoded ABI arguments are strings (bytes), bigints
(uints) or booleans. -/
inductive JsValue where
  | jsStr (s : String)
  | jsBigInt (n : Nat)
  | jsBool (b : Bool)
  | jsObjData (d : JsValue)
  | jsObjPlain
deriving DecidableEq

/-- JS truthiness of a `JsValue` ('' , 0n and false are falsy; objects truthy). -/
def truthy : JsValue → Bool
  | .jsStr s => s ≠ ""
  | .jsBigInt n => n ≠ 0
  | .jsBool b => b
  | .jsObjData _ => true
  | .jsObjPlain => true

/-- `s.startsWith('0x')` on a JS string. -/
def startsWith0x (s : String) : Bool :=
  match s.data with
  | '0' :: 'x' :: _ => true
  | _ => false

/-- JS `v.length > 2` where `v` may not be a string (then `.length` is
`undefined` and the comparison is false). -/
def lenGt2 : JsValue → Bool
  | .jsStr s => decide (s.data.length > 2)
  | _ => false

/-- JS `String(v)` as used by `Array.prototype.join`. -/
def jsToString : JsValue → String
  | .jsStr s => s
  | .jsBigInt n => toString n
  | .jsBool b => if b then "true" else "false"
  | .jsObjData _ => "[object Object]"
  | .jsObjPlain => "[object Object]"

/-- JS `a || b` for strings (empty string falls through to the default). -/
def jsOr (s dflt : String) : String := if s = "" then dflt else s

/-- `l` contains `sub` as a contiguous run (JS `String.prototype.includes`). -/
def containsSub (sub : List Char) : List Char → Bool
  | [] => sub.isPrefixOf []
  | c :: cs => sub.isPrefixOf (c :: cs) || containsSub sub cs

/-- JS `s.includes(sub)`. -/
def jsIncludes (s sub : String) : Bool := containsSub sub.data s.data

/-- JS `s.slice(0, 10)` (the hex-prefixed 4-byte selector of a hex string). -/
def jsSlice10 (s : String) : String := String.mk (s.data.take 10)

/-! ## Hex strings and byte buffers -/

/-- Lowercase hex digit for a value < 16. -/
def hexDigitChar (n : Nat) : Char :=
  if n = 0 then '0' else if n = 1 then '1' else if n = 2 then '2'
  else if n = 3 then '3' else if n = 4 then '4' else if n = 5 then '5'
  else if n = 6 then '6' else if n = 7 then '7' else if n = 8 then '8'
  else if n = 9 then '9' else if n = 10 then 'a' else if n = 11 then 'b'
  else if n = 12 then 'c' else if n = 13 then 'd' else if n = 14 then 'e'
  else 'f'

/-- Value of a lowercase hex digit (the inverse search of `hexDigitChar`). -/
def hexVal (c : Char) : Option Nat :=
  (List.range 16).find? (fun n => hexDigitChar n == c)

/-- Two lowercase hex digits for one byte. -/
def byteToHex (b : Nat) : List Char := [hexDigitChar (b / 16), hexDigitChar (b % 16)]

/-- Hex character run of a byte buffer. -/
def hexJoin (bs : List Nat) : List Char := (bs.map byteToHex).flatten

/-- `0x`-prefixed lowercase hex rendering of a byte buffer. -/
def bytesToHexStr (bs : List Nat) : String := String.mk ('0' :: 'x' :: hexJoin bs)

/-- Parse pairs of hex digits into bytes; fails on an odd run or a non-hex digit. -/
def hexPairsToBytes : List Char → Option (List Nat)
  | [] => some []
  | [_] => none
  | c1 :: c2 :: rest => do
      let h ← hexVal c1
      let l ← hexVal c2
      let bs ← hexPairsToBytes rest
      some ((h * 16 + l) :: bs)

/-- Parse a `0x`-prefixed hex string into a byte buffer. -/
def parseHex (s : String) : Option (List Nat) :=
  match s.data with
  | '0' :: 'x' :: rest => hexPairsToBytes rest
  | _ => none

/-! ## ABI words (big-endian 32-byte unsigned integers) -/

/-- Big-endian bytes of `n`, `w` bytes wide (truncating above `256 ^ w`). -/
def beBytes : Nat → Nat → List Nat
  | 0, _ => []
  | w + 1, n => beBytes w (n / 256) ++ [n % 256]

/-- One 32-byte ABI word. -/
def u256 (n : Nat) : List Nat := beBytes 32 n

/-- Big-endian value of a byte buffer. -/
def readBE (bs : List Nat) : Nat := bs.foldl (fun a b => a * 256 + b) 0

/-- Zero padding needed to reach a multiple of 32. -/
def padLen (n : Nat) : Nat := (32 - n % 32) % 32

/-- Pad a buffer with zeros to a multiple of 32 bytes. -/
def padTo32 (bs : List Nat) : List Nat := bs ++ List.replicate (padLen bs.length) 0

/-! ## ABI interface registry and coders

The relay decodes call/revert data with viem's `decodeFunctionData` /
`decodeErrorResult` over the merged `allABIs` registry.  Neither viem's coders
nor the ABI JSON files are in src/, so both are modelled from the spec
(sections 3, 4.1, 4.2). -/

/-- ABI parameter type tags used by the modelled registry (a representative
subset of the spec's type grammar: one static numeric type, booleans, and the
dynamic `bytes` type that carries nested revert payloads). -/
inductive AbiType where
  | uintT
  | boolT
  | bytesT
deriving DecidableEq

/-- Interface entry kind: function or error. -/
inductive EntryKind where
  | functionK
  | errorK
deriving DecidableEq

/-- Modelled from the spec (3. DATA MODEL `InterfaceEntry`): kind, name, typed
parameters and the derived 4-byte selector.  The selector is `keccak`-derived in
the source; the hash itself is not in src/, so entries carry their derived
selector as data. -/
structure InterfaceEntry where
  kind : EntryKind
  name : String
  inputs : List AbiType
  selector : List Nat
deriving DecidableEq

/-- Modelled from the spec (4.1): first registration-order match for a selector
among entries of the requested kind. -/
def findEntry (reg : List InterfaceEntry) (k : EntryKind) (sel : List Nat) :
    Option InterfaceEntry :=
  reg.find? (fun e => e.kind == k && e.selector == sel)

/-- Modelled from the spec (4.2): ABI-encode the static head slot of one
argument, or the 32-byte tail chunk of a dynamic argument.  `encParts base ts vs
tl` returns `(heads, tails)` for parameters `ts` and JS arguments `vs`, where
`base` is the byte size of the whole head area and `tl` the byte length of the
tails emitted so far (so a dynamic head stores absolute offset `base + tl`). -/
def encParts (base : Nat) : List AbiType → List JsValue → Nat → Option (List Nat × List Nat)
  | [], [], _ => some ([], [])
  | .uintT :: ts, .jsBigInt n :: vs, tl =>
      if n < 2 ^ 256 then
        (encParts base ts vs tl).map (fun p => (u256 n ++ p.1, p.2))
      else none
  | .boolT :: ts, .jsBool b :: vs, tl =>
      (encParts base ts vs tl).map (fun p => (u256 (if b then 1 else 0) ++ p.1, p.2))
  | .bytesT :: ts, .jsStr s :: vs, tl =>
      match parseHex s with
      | some bs =>
          (encParts base ts vs (tl + (32 + (padTo32 bs).length))).map
            (fun p => (u256 (base + tl) ++ p.1, (u256 bs.length ++ padTo32 bs) ++ p.2))
      | none => none
  | _, _, _ => none

/-- Modelled from the spec (4.2): standard ABI tuple encoding — all heads, then
all tails. -/
def encodeTuple (params : List AbiType) (args : List JsValue) : Option (List Nat) :=
  (encParts (32 * params.length) params args 0).map (fun p => p.1 ++ p.2)

/-- Modelled from the spec (8. round-trip property): `encode(e, args)` — the
selector followed by the ABI tuple encoding of the arguments, as a hex string. -/
def encodeErrorData (e : InterfaceEntry) (args : List JsValue) : Option String :=
  (encodeTuple e.inputs args).map (fun tup => bytesToHexStr (e.selector ++ tup))

/-- Modelled from the spec (4.2): standard ABI tuple decoding of `full` starting
at head position `pos` — static types read in place, dynamic types via an
offset/length head; fails (`none`) when truncated. -/
def decParts (full : List Nat) : List AbiType → Nat → Option (List JsValue)
  | [], _ => some []
  | t :: ts, pos =>
      if pos + 32 ≤ full.length then
        let word := (full.drop pos).take 32
        match t with
        | .uintT =>
            (decParts full ts (pos + 32)).map (fun vs => .jsBigInt (readBE word) :: vs)
        | .boolT =>
            if readBE word = 1 then
              (decParts full ts (pos + 32)).map (fun vs => .jsBool true :: vs)
            else if readBE word = 0 then
              (decParts full ts (pos + 32)).map (fun vs => .jsBool false :: vs)
            else none
        | .bytesT =>
            let off := readBE word
            if off + 32 ≤ full.length then
              let len := readBE ((full.drop off).take 32)
              if off + 32 + len ≤ full.length then
                (decParts full ts (pos + 32)).map
                  (fun vs => .jsStr (bytesToHexStr ((full.drop (off + 32)).take len)) :: vs)
              else none
            else none
      else none

/-- A decoded error as returned by viem's `decodeErrorResult`: the matched error
name and its decoded arguments (`none` when the entry has no inputs, matching
viem's `args: undefined`). -/
structure DecodedError where
  errorName : String
  args : Option (List JsValue)
deriving DecidableEq

/-- Modelled from the spec (4.2 `decodeErrorData`): split selector, first-match
lookup, decode the remainder against the entry's parameter list.  Any failure is
`none` (too short, unknown selector, truncated arguments). -/
def decodeErrorResultM (reg : List InterfaceEntry) (s : String) : Option DecodedError :=
  match parseHex s with
  | none => none
  | some blob =>
      if blob.length < 4 then none
      else
        match findEntry reg .errorK (blob.take 4) with
        | none => none
        | some e =>
            match decParts (blob.drop 4) e.inputs 0 with
            | none => none
            | some args =>
                some { errorName := e.name
                       args := if e.inputs.isEmpty then none else some args }

/-- Modelled from the spec (4.2 `decodeCallData` inner step): like error
decoding but over function entries, yielding the function name and arguments. -/
def decodeFunctionDataM (reg : List InterfaceEntry) (s : String) :
    Option (String × Option (List JsValue)) :=
  match parseHex s with
  | none => none
  | some blob =>
      if blob.length < 4 then none
      else
        match findEntry reg .functionK (blob.take 4) with
        | none => none
        | some e =>
            match decParts (blob.drop 4) e.inputs 0 with
            | none => none
            | some args =>
                some (e.name, if e.inputs.isEmpty then none else some args)

/-- Embeds `decodeError` (src/src/utils/decode.ts lines 37-54): try
`decodeErrorResult` over `allABIs`, catching every internal failure into `null`
(`none`); the registry is a parameter because the ABI data is not in src/. -/
def decodeErrorFn (reg : List InterfaceEntry) (s : String) : Option DecodedError :=
  decodeErrorResultM reg s

/-- Result of `decodeCallData` (src/src/utils/decode.ts): either the decoded
call, or the partial-information object `{functionName: 'unknown', args: [],
selector, rawData, error}` built in the catch branch (the caught message is not
modelled). -/
inductive CallDecodeResult where
  | decoded (functionName : String) (args : Option (List JsValue))
  | failure (functionName : String) (args : List JsValue) (selector : String) (rawData : String)
deriving DecidableEq

/-- Embeds `decodeCallData` (src/src/utils/decode.ts lines 5-35): try
`decodeFunctionData`; on any failure return the partial object carrying
`selector = data.slice(0, 10)` and the raw data. -/
def decodeCallData (reg : List InterfaceEntry) (s : String) : CallDecodeResult :=
  match decodeFunctionDataM reg s with
  | some d => .decoded d.1 d.2
  | none => .failure "unknown" [] (jsSlice10 s) s

/-- Modelled from the spec (2. `Interface Registry`, 3. `InterfaceRegistry`):
the merged `allABIs` registry.  The ABI JSON files imported by
src/src/allAbis.ts are not in src/; this representative registry keeps the
load-bearing entry (the `FailedCallWithMessage` wrapper error with a `bytes`
payload) plus sample function and error entries with distinct selectors. -/
def allABIsModel : List InterfaceEntry :=
  [ { kind := .functionK, name := "execute", inputs := [.bytesT], selector := [9, 8, 7, 6] },
    { kind := .errorK, name := "FailedCallWithMessage", inputs := [.bytesT],
      selector := [17, 34, 51, 68] },
    { kind := .errorK, name := "InnerError", inputs := [.uintT], selector := [170, 187, 204, 221] },
    { kind := .errorK, name := "FlagError", inputs := [.boolT], selector := [1, 2, 3, 4] },
    { kind := .errorK, name := "EmptyError", inputs := [], selector := [5, 6, 7, 8] } ]

/-! ## Failure chains and the unified error record

viem failures arrive as a `BaseError` whose `cause` relation forms a linear
chain.  `error.walk(pred)` visits the error itself and then each cause in order
and returns the first node satisfying `pred`; we embed the chain as the list of
its nodes (outermost first), so a walk is `List.find?` over that list. -/

/-- The viem error classes the handler discriminates with `instanceof`. -/
inductive NodeKind where
  | httpK
  | rpcK
  | contractK
  | executionK
  | genericK
deriving DecidableEq

/-- One node of a viem failure chain, with the fields the handler reads:
`status` (HttpRequestError), `code`/`shortMessage`/`data` (RpcRequestError),
`reason`/`data` (ContractFunctionRevertedError), `message` and a generic `data`
field any node may expose. -/
structure ViemNode where
  kind : NodeKind
  message : String := ""
  shortMessage : String := ""
  status : Option Int := none
  code : Int := 0
  reason : Option String := none
  rdata : Option JsValue := none
deriving DecidableEq

/-- A viem `BaseError`: its own `shortMessage`/`message` plus its cause chain
(the error itself is the first node). -/
structure ViemError where
  shortMessage : String := ""
  message : String := ""
  nodes : List ViemNode := []
deriving DecidableEq

/-- `e instanceof HttpRequestError`. -/
def isHttpNode (n : ViemNode) : Bool := n.kind == .httpK

/-- `e instanceof RpcRequestError`. -/
def isRpcNode (n : ViemNode) : Bool := n.kind == .rpcK

/-- `e instanceof ContractFunctionRevertedError`. -/
def isContractNode (n : ViemNode) : Bool := n.kind == .contractK

/-- `e instanceof ExecutionRevertedError`. -/
def isExecutionNode (n : ViemNode) : Bool := n.kind == .executionK

/-- `(e as any).data && typeof (e as any).data === 'string' &&
(e as any).data.startsWith('0x')` (allAbis.ts line 183). -/
def hasHexDataNode (n : ViemNode) : Bool :=
  match n.rdata with
  | some (.jsStr s) => s ≠ "" && startsWith0x s
  | _ => false

/-- `(e as any).data` is truthy (the predicate of the walk inside
`decodeExecutionError`, allAbis.ts line 434). -/
def hasTruthyDataNode (n : ViemNode) : Bool :=
  match n.rdata with
  | some v => truthy v
  | none => false

/-- The raw RPC error retained in `details.rpcError`. -/
structure RpcErrorInfo where
  code : Int
  message : String
  data : Option JsValue := none
deriving DecidableEq

/-- A nested unified error as built for `details.nestedErrors` (allAbis.ts
lines 403-409); only the fields the source ever sets there. -/
structure NestedErrorRec where
  ntype : String
  nmessage : String
  ndecodedError : Option DecodedError
deriving DecidableEq

/-- The `details` bag of a `UnifiedError` (allAbis.ts lines 106-117; the
`transactionRequest` field is never set by the handler and is not modelled). -/
structure UnifiedDetails where
  selector : Option String := none
  data : Option String := none
  decodedError : Option DecodedError := none
  nestedErrors : Option (List NestedErrorRec) := none
  rpcError : Option RpcErrorInfo := none
deriving DecidableEq

/-- The five terminal classification states. -/
inductive ErrType where
  | network
  | rpc
  | contract
  | validation
  | unknown
deriving DecidableEq

/-- The normalized error record (allAbis.ts `UnifiedError`, lines 102-119).
The retained `originalError` is a pure diagnostic alias of the input failure
and is not modelled. -/
structure UnifiedError where
  type : ErrType
  message : String
  code : Option Int := none
  details : Option UnifiedDetails := none
deriving DecidableEq

/-! ## The ErrorHandler (src/src/allAbis.ts lines 121-481)

All functions take the error decoder `dec` as a parameter: the source calls the
fixed `decodeError` of decode.ts, whose viem internals and registry data are not
in src/ (see `decodeErrorFn`). -/

/-- `decodeError(v)` applied to an arbitrary JS value: viem only succeeds on hex
strings, any other argument makes it throw internally, which `decodeError`
catches into `null`. -/
def decJs (dec : String → Option DecodedError) : JsValue → Option DecodedError
  | .jsStr s => dec s
  | _ => none

/-- `JSON.stringify` applied to the non-string `error.data` of a contract
revert node (allAbis.ts line 391).  Only the shape matters to the handler: the
result is not a `0x`-prefixed hex string, so the subsequent decode fails; we
model it as an opaque JSON object rendering. -/
def jsonStringifyNonString (_ : JsValue) : String := "{}"

/-- The in-order scan of wrapper arguments (allAbis.ts lines 219-230): find the
first argument that is a hex string of length >= 10 and itself decodes as an
error; on a failed decode the loop continues with the next argument. -/
def scanArgs (dec : String → Option DecodedError) : List JsValue → Option (DecodedError × String)
  | [] => none
  | a :: rest =>
      match a with
      | .jsStr s =>
          if startsWith0x s && decide (s.data.length ≥ 10) then
            match dec s with
            | some d => some (d, s)
            | none => scanArgs dec rest
          else scanArgs dec rest
      | _ => scanArgs dec rest

/-- Phase 1 of the RPC branch (allAbis.ts lines 204-239): normalize
`rpcError.data` into candidate revert data and, for a direct hex string longer
than 138 characters, run the wrapper pre-decode and `scanArgs`; returns the pair
`(decodedRevert, revertData)`. -/
def extractRevert (dec : String → Option DecodedError) (rd : Option JsValue) :
    Option DecodedError × Option JsValue :=
  match rd with
  | none => (none, none)
  | some v =>
      if truthy v then
        match v with
        | .jsStr s =>
            if startsWith0x s then
              if decide (s.data.length > 138) then
                match dec s with
                | some d =>
                    match d.args with
                    | some args =>
                        if decide (args.length > 0) then
                          match scanArgs dec args with
                          | some p => (some p.1, some (.jsStr p.2))
                          | none => (none, some (.jsStr s))
                        else (none, some (.jsStr s))
                    | none => (none, some (.jsStr s))
                | none => (none, some (.jsStr s))
              else (none, some (.jsStr s))
            else (none, none)
        | .jsObjData inner => (none, some inner)
        | _ => (none, none)
      else (none, none)

/-- `decoded.errorName === 'FailedCallWithMessage' && decoded.args &&
decoded.args.length > 0` (allAbis.ts line 249). -/
def fcwmCheck (d : DecodedError) : Bool :=
  d.errorName == "FailedCallWithMessage" &&
    (match d.args with
     | some l => decide (l.length > 0)
     | none => false)

/-- Phase 2 of the RPC branch (allAbis.ts lines 241-281): when the candidate
revert data is a truthy string longer than 2 characters, decode it; if the
decode yields the `FailedCallWithMessage` wrapper with arguments, attempt one
further decode of argument 0 (keeping the outer decode when the inner one
fails); otherwise use the decode as-is.  A failed decode keeps the
`decodedRevert` produced by phase 1. -/
def unwrapRevert (dec : String → Option DecodedError)
    (st : Option DecodedError × Option JsValue) : Option DecodedError :=
  match st.2 with
  | none => st.1
  | some v =>
      if truthy v && lenGt2 v then
        match v with
        | .jsStr s =>
            match dec s with
            | some d =>
                if fcwmCheck d then
                  match d.args with
                  | some (a0 :: _) =>
                      match a0 with
                      | .jsStr s0 =>
                          if startsWith0x s0 then
                            match dec s0 with
                            | some inner => some inner
                            | none => some d
                          else some d
                      | _ => some d
                  | _ => some d
                else some d
            | none => st.1
        | _ => st.1
      else st.1

/-- `revertData!.slice(0, 10)` in the contract result of the RPC branch
(allAbis.ts line 298); the revert data there is always a hex string (a
non-string candidate never yields a decode). -/
def candTake10 : Option JsValue → String
  | some (.jsStr s) => jsSlice10 s
  | _ => ""

/-- `data: revertData || undefined` (allAbis.ts line 299). -/
def candStr : Option JsValue → Option String
  | some (.jsStr s) => if s = "" then none else some s
  | _ => none

/-- `errorArgs.join(', ')` (allAbis.ts line 291). -/
def joinArgs (args : List JsValue) : String :=
  String.intercalate ", " (args.map jsToString)

/-- The RPC branch of `handleViemError` (allAbis.ts lines 202-324). -/
def rpcBranch (dec : String → Option DecodedError) (r : ViemNode) : UnifiedError :=
  let st := extractRevert dec r.rdata
  let decodedRevert := unwrapRevert dec st
  match decodedRevert with
  | some dR =>
      let errorMessage := jsOr dR.errorName "Unknown contract error"
      let errorArgs := dR.args.getD []
      let detailedMessage :=
        "Transaction reverted: " ++ errorMessage ++
          (if decide (errorArgs.length > 0) then " (" ++ joinArgs errorArgs ++ ")" else "")
      { type := .contract
        message := detailedMessage
        details := some
          { selector := some (candTake10 st.2)
            data := candStr st.2
            decodedError := some dR
            rpcError := some { code := r.code, message := r.message, data := r.rdata } } }
  | none =>
      { type := .rpc
        message := jsOr r.shortMessage "RPC request failed"
        code := some r.code
        details := some
          { rpcError := some { code := r.code, message := r.message, data := r.rdata } } }

/-- Result record of `decodeContractError` (allAbis.ts lines 377-383). -/
structure ContractDecodeResult where
  message : String
  selector : Option String := none
  data : Option String := none
  decodedError : Option DecodedError := none
  nestedErrors : Option (List NestedErrorRec) := none
deriving DecidableEq

/-- The non-nested contract decode result (allAbis.ts lines 414-419). -/
def contractOuterResult (d : DecodedError) (errorData : String) : ContractDecodeResult :=
  { message := "Contract reverted: " ++ d.errorName
    selector := some (jsSlice10 errorData)
    data := some errorData
    decodedError := some d }

/-- Embeds `decodeContractError` (allAbis.ts lines 377-424): prefer the
built-in revert `reason`; otherwise decode `error.data` (stringifying a
non-string value) and unwrap one `FailedCallWithMessage` level into
`nestedErrors`. -/
def decodeContractError (dec : String → Option DecodedError) (c : ViemNode) :
    ContractDecodeResult :=
  if (match c.reason with | some rr => rr != "" | none => false) then
    { message := "Contract reverted: " ++ (c.reason.getD "") }
  else
    match c.rdata with
    | some v =>
        if truthy v then
          let errorData := match v with | .jsStr s => s | w => jsonStringifyNonString w
          match dec errorData with
          | some d =>
              if d.errorName == "FailedCallWithMessage" &&
                  (match d.args with | some (a0 :: _) => truthy a0 | _ => false) then
                match d.args with
                | some (a0 :: _) =>
                    match decJs dec a0 with
                    | some nd =>
                        { message := "Contract reverted: " ++ nd.errorName
                          selector := some (jsSlice10 errorData)
                          data := some errorData
                          decodedError := some d
                          nestedErrors := some
                            [ { ntype := "contract"
                                nmessage := jsOr nd.errorName "Unknown nested error"
                                ndecodedError := some nd } ] }
                    | none => contractOuterResult d errorData
                | _ => contractOuterResult d errorData
              else contractOuterResult d errorData
          | none => { message := "Contract reverted with unknown error" }
        else { message := "Contract reverted with unknown error" }
    | none => { message := "Contract reverted with unknown error" }

/-- Embeds `decodeExecutionError` (allAbis.ts lines 426-454): walk the
execution error's own chain (a suffix of the outer chain) for any truthy
`data`, decode it, and fall back to the node's message.  Returns the message
and the optional details. -/
def decodeExecutionError (dec : String → Option DecodedError) (ex : ViemNode)
    (suffix : List ViemNode) : String × Option UnifiedDetails :=
  match suffix.find? hasTruthyDataNode with
  | some nd =>
      match nd.rdata with
      | some v =>
          (match decJs dec v with
           | some d =>
               ("Execution reverted: " ++ d.errorName,
                some { selector := some (candTake10 (some v))
                       data := candStr (some v)
                       decodedError := some d })
           | none => (jsOr ex.message "Execution reverted", none))
      | none => (jsOr ex.message "Execution reverted", none)
  | none => (jsOr ex.message "Execution reverted", none)

/-- The fall-through `unifiedError` value (allAbis.ts lines 170-174). -/
def fallbackUnknown (err : ViemError) : UnifiedError :=
  { type := .unknown, message := jsOr err.shortMessage err.message }

/-- The catch-all revert-data branch (allAbis.ts lines 353-372). -/
def errorWithDataBranch (dec : String → Option DecodedError) (err : ViemError)
    (nd : ViemNode) : UnifiedError :=
  match nd.rdata with
  | some (.jsStr s) =>
      (match dec s with
       | some d =>
           { type := .contract
             message := "Transaction reverted: " ++ d.errorName
             details := some
               { selector := some (jsSlice10 s)
                 data := some s
                 decodedError := some d } }
       | none => fallbackUnknown err)
  | _ => fallbackUnknown err

/-- Embeds `handleViemError` (allAbis.ts lines 169-375): walk the chain for
each error class and dispatch in source order — HTTP transport, JSON-RPC,
contract revert, execution revert, any hex revert data, fall-through. -/
def handleViemError (dec : String → Option DecodedError) (err : ViemError) : UnifiedError :=
  match err.nodes.find? isHttpNode with
  | some h =>
      { type := .network
        message := "Network request failed"
        code := h.status
        details := some
          { rpcError := some { code := h.status.getD 0, message := h.message } } }
  | none =>
      match err.nodes.find? isRpcNode with
      | some r => rpcBranch dec r
      | none =>
          match err.nodes.find? isContractNode with
          | some c =>
              let d := decodeContractError dec c
              { type := .contract
                message := d.message
                details := some
                  { selector := d.selector
                    data := d.data
                    decodedError := d.decodedError
                    nestedErrors := d.nestedErrors } }
          | none =>
              match err.nodes.find? isExecutionNode with
              | some ex =>
                  let d := decodeExecutionError dec ex
                    (err.nodes.dropWhile (fun n => !isExecutionNode n))
                  { type := .contract, message := d.1, details := d.2 }
              | none =>
                  match err.nodes.find? hasHexDataNode with
                  | some nd => errorWithDataBranch dec err nd
                  | none => fallbackUnknown err

/-- Embeds `handleStandardError` (allAbis.ts lines 456-480). -/
def handleStandardError (msg : String) : UnifiedError :=
  if jsIncludes msg "fetch" || jsIncludes msg "network" then
    { type := .network, message := "Network connection failed" }
  else if jsIncludes msg "Missing required fields" || jsIncludes msg "Invalid" then
    { type := .validation, message := msg }
  else
    { type := .unknown, message := msg }

/-- The opaque failure given to `handleError`: a viem `BaseError` chain, a plain
`Error` (only its message is read), or an arbitrary thrown value (only its
`String(...)` rendering is read). -/
inductive FailureModel where
  | viemErr (e : ViemError)
  | stdErr (message : String)
  | otherVal (repr : String)

/-- Embeds `handleError` (allAbis.ts lines 129-167): dispatch on the failure
shape; unknown values yield `unknown` with their string rendering. -/
def handleError (dec : String → Option DecodedError) : FailureModel → UnifiedError
  | .viemErr e => handleViemError dec e
  | .stdErr m => handleStandardError m
  | .otherVal s => { type := .unknown, message := s }

/-! ## The bounded chain walker (spec 4.3)

Modelled from the spec: the implementation of `walk` lives in viem's
`BaseError`, which is not in src/ (allAbis.ts only calls it).  Per spec 4.3 the
walk follows the `cause` relation from the failure, returns the first node
satisfying the predicate, and is bounded — it must terminate even on a cyclic
chain by capping depth at a fixed maximum of 16 hops, returning none past the
bound.  Nodes are identified by `Nat` and the `cause` relation is an arbitrary
partial function, so cyclic chains are representable. -/

/-- Fuelled traversal along `cause`. -/
def walkGo (cause : Nat → Option Nat) (p : Nat → Bool) : Nat → Nat → Option Nat
  | 0, _ => none
  | fuel + 1, n =>
      if p n then some n
      else
        match cause n with
        | some m => walkGo cause p fuel m
        | none => none

/-- Modelled from the spec (4.3): `walk(failure, predicate)` with the 16-hop
depth cap. -/
def walkModel (cause : Nat → Option Nat) (p : Nat → Bool) (start : Nat) : Option Nat :=
  walkGo cause p 16 start

/-- The `i`-th node of the cause chain from `start` (`0`-th is `start`). -/
def chainSeq (cause : Nat → Option Nat) (start : Nat) : Nat → Option Nat
  | 0 => some start
  | i + 1 => (chainSeq cause start i).bind cause

/-! ## Field accessors used by the theorems -/

/-- The decoded error stored in `details.decodedError`. -/
def uDecodedError (u : UnifiedError) : Option DecodedError :=
  u.details.bind (fun d => d.decodedError)

/-- The raw data stored in `details.data`. -/
def uData (u : UnifiedError) : Option String :=
  u.details.bind (fun d => d.data)

/-- The selector stored in `details.selector`. -/
def uSelector (u : UnifiedError) : Option String :=
  u.details.bind (fun d => d.selector)

/-- The nested errors stored in `details.nestedErrors`. -/
def uNested (u : UnifiedError) : Option (List NestedErrorRec) :=
  u.details.bind (fun d => d.nestedErrors)

/-- The raw RPC error stored in `details.rpcError`. -/
def uRpcInfo (u : UnifiedError) : Option RpcErrorInfo :=
  u.details.bind (fun d => d.rpcError)

/-! ## Concrete demonstration values

Shared by the witnesses and counterexamples: the modelled registry's decoder
and an encoded `FailedCallWithMessage(InnerError(42))` wrapper payload. -/

/-- The decoder the source handler uses: `decodeError` over `allABIs`. -/
def decDemo : String → Option DecodedError := decodeErrorFn allABIsModel

/-- The `FailedCallWithMessage(bytes)` wrapper entry of the modelled registry. -/
def fcwmEntry : InterfaceEntry :=
  { kind := .errorK, name := "FailedCallWithMessage", inputs := [.bytesT],
    selector := [17, 34, 51, 68] }

/-- The `InnerError(uint256)` entry of the modelled registry. -/
def innerEntry : InterfaceEntry :=
  { kind := .errorK, name := "InnerError", inputs := [.uintT],
    selector := [170, 187, 204, 221] }

/-- Encoded `InnerError(42)`. -/
def demoInnerHex : String := (encodeErrorData innerEntry [.jsBigInt 42]).getD ""

/-- Encoded `FailedCallWithMessage(<demoInnerHex bytes>)`. -/
def demoOuterHex : String := (encodeErrorData fcwmEntry [.jsStr demoInnerHex]).getD ""

/-- The decoded form of `demoInnerHex`. -/
def innerDecoded : DecodedError := { errorName := "InnerError", args := some [.jsBigInt 42] }

/-- The decoded form of `demoOuterHex` (the wrapper). -/
def outerDecoded : DecodedError :=
  { errorName := "FailedCallWithMessage", args := some [.jsStr demoInnerHex] }

/-- A chain whose only node is a JSON-RPC error carrying the wrapper payload in
an object-shaped `data` field (`{ data: <hex> }`). -/
def demoWrappedRpcErr : ViemError :=
  { shortMessage := "outer", message := "outer msg",
    nodes := [ { kind := .rpcK, message := "rpc msg", shortMessage := "rpc short", code := 3,
                 rdata := some (.jsObjData (.jsStr demoOuterHex)) } ] }

/-- A chain whose only node is a JSON-RPC error carrying `InnerError(42)` in an
object-shaped `data` field. -/
def demoInnerRpcErr : ViemError :=
  { nodes := [ { kind := .rpcK, message := "rpc msg", code := 3,
                 rdata := some (.jsObjData (.jsStr demoInnerHex)) } ] }

/-- A chain whose only node is a JSON-RPC error carrying the wrapper payload as
a direct hex string (long enough to trigger the nested argument scan). -/
def demoScanRpcErr : ViemError :=
  { nodes := [ { kind := .rpcK, code := 7, message := "m", rdata := some (.jsStr demoOuterHex) } ] }

/-- A chain whose only walkable node is an HTTP transport error with status 503. -/
def demoHttpErr : ViemError :=
  { nodes := [ { kind := .httpK, status := some 503, message := "http fail" } ] }

/-- A chain whose only node is a JSON-RPC error with empty revert payload `0x`. -/
def demoEmptyDataRpcErr : ViemError :=
  { nodes := [ { kind := .rpcK, code := -32000, shortMessage := "", message := "rpc m",
                 rdata := some (.jsStr "0x") } ] }

/-- A chain whose only node is a contract revert carrying the wrapper payload. -/
def demoContractErr : ViemError :=
  { nodes := [ { kind := .contractK, reason := none,
                 rdata := some (.jsStr demoOuterHex) } ] }

/-! ## Lemmas: hex round-trips -/

theorem hexVal_hexDigitChar : ∀ n, n < 16 → hexVal (hexDigitChar n) = some n := by decide

theorem hexDigitChar_hexVal {c : Char} {n : Nat} (h : hexVal c = some n) :
    hexDigitChar n = c := by
  have := List.find?_some h
  exact eq_of_beq this

theorem hexVal_lt {c : Char} {n : Nat} (h : hexVal c = some n) : n < 16 := by
  have := List.mem_of_find?_eq_some h
  exact List.mem_range.mp this

theorem hexPairsToBytes_hexJoin : ∀ bs : List Nat, (∀ b ∈ bs, b < 256) →
    hexPairsToBytes (hexJoin bs) = some bs := by
  intro bs
  induction bs with
  | nil => intro _; rfl
  | cons b bs ih =>
      intro hb
      have hblt : b < 256 := hb b (List.mem_cons_self b bs)
      have h1 : b / 16 < 16 := by omega
      have h2 : b % 16 < 16 := by omega
      have hrec := ih (fun x hx => hb x (List.mem_cons_of_mem b hx))
      rw [show hexJoin (b :: bs) =
            hexDigitChar (b / 16) :: hexDigitChar (b % 16) :: hexJoin bs from rfl]
      simp only [hexPairsToBytes, hexVal_hexDigitChar _ h1, hexVal_hexDigitChar _ h2, hrec,
        Option.bind_eq_bind, Option.some_bind, Option.some.injEq, List.cons.injEq, and_true]
      omega

theorem hexJoin_of_hexPairsToBytes : ∀ (cs : List Char) (bs : List Nat),
    hexPairsToBytes cs = some bs → hexJoin bs = cs ∧ ∀ b ∈ bs, b < 256 := by
  intro cs
  induction cs using hexPairsToBytes.induct with
  | case1 =>
      intro bs h
      simp only [hexPairsToBytes, Option.some.injEq] at h
      subst h
      exact ⟨rfl, by simp⟩
  | case2 c =>
      intro bs h
      exact Option.noConfusion h
  | case3 c1 c2 rest ih =>
      intro bs h
      simp only [hexPairsToBytes, Option.bind_eq_bind, Option.bind_eq_some,
        Option.some.injEq] at h
      obtain ⟨h1, hv1, l1, hv2, bs', hrec, heq⟩ := h
      obtain ⟨hjoin, hlt⟩ := ih bs' hrec
      subst heq
      have hh := hexVal_lt hv1
      have hl := hexVal_lt hv2
      constructor
      · rw [show hexJoin ((h1 * 16 + l1) :: bs') =
              hexDigitChar ((h1 * 16 + l1) / 16) :: hexDigitChar ((h1 * 16 + l1) % 16) ::
                hexJoin bs' from rfl]
        have hdiv : (h1 * 16 + l1) / 16 = h1 := by omega
        have hmod : (h1 * 16 + l1) % 16 = l1 := by omega
        rw [hdiv, hmod, hexDigitChar_hexVal hv1, hexDigitChar_hexVal hv2, hjoin]
      · intro b hbmem
        rcases List.mem_cons.mp hbmem with hb1 | hb2
        · omega
        · exact hlt b hb2

theorem stringMk_data : ∀ s : String, String.mk s.data = s := by
  intro s
  cases s
  rfl

theorem parseHex_bytesToHexStr {bs : List Nat} (h : ∀ b ∈ bs, b < 256) :
    parseHex (bytesToHexStr bs) = some bs := by
  simp only [bytesToHexStr, parseHex]
  exact hexPairsToBytes_hexJoin bs h

theorem bytesToHexStr_parseHex {s : String} {bs : List Nat} (h : parseHex s = some bs) :
    bytesToHexStr bs = s ∧ ∀ b ∈ bs, b < 256 := by
  unfold parseHex at h
  split at h
  · rename_i rest hdata
    obtain ⟨hjoin, hlt⟩ := hexJoin_of_hexPairsToBytes rest bs h
    refine ⟨?_, hlt⟩
    rw [bytesToHexStr, hjoin, ← hdata, stringMk_data]
  · exact Option.noConfusion h

theorem hexPairsToBytes_length : ∀ (cs : List Char) (bs : List Nat),
    hexPairsToBytes cs = some bs → cs.length = 2 * bs.length := by
  intro cs
  induction cs using hexPairsToBytes.induct with
  | case1 =>
      intro bs h
      simp only [hexPairsToBytes, Option.some.injEq] at h
      subst h
      rfl
  | case2 c =>
      intro bs h
      exact Option.noConfusion h
  | case3 c1 c2 rest ih =>
      intro bs h
      simp only [hexPairsToBytes, Option.bind_eq_bind, Option.bind_eq_some,
        Option.some.injEq] at h
      obtain ⟨h1, _, l1, _, bs', hrec, heq⟩ := h
      subst heq
      have := ih bs' hrec
      simp only [List.length_cons, this]
      omega

theorem parseHex_length {s : String} {bs : List Nat} (h : parseHex s = some bs) :
    s.data.length = 2 + 2 * bs.length := by
  unfold parseHex at h
  split at h
  · rename_i rest hdata
    have := hexPairsToBytes_length rest bs h
    rw [hdata]
    simp only [List.length_cons, this]
    omega
  · exact Option.noConfusion h

theorem hexJoin_length : ∀ bs : List Nat, (hexJoin bs).length = 2 * bs.length := by
  intro bs
  induction bs with
  | nil => rfl
  | cons b bs ih =>
      rw [show hexJoin (b :: bs) =
            hexDigitChar (b / 16) :: hexDigitChar (b % 16) :: hexJoin bs from rfl]
      simp only [List.length_cons, ih]
      omega

/-! ## Lemmas: ABI words -/

theorem beBytes_length : ∀ w n, (beBytes w n).length = w := by
  intro w
  induction w with
  | zero => intro n; rfl
  | succ w ih =>
      intro n
      simp only [beBytes, List.length_append, ih, List.length_cons, List.length_nil]

theorem beBytes_lt : ∀ w n, ∀ b ∈ beBytes w n, b < 256 := by
  intro w
  induction w with
  | zero => intro n b hb; simp [beBytes] at hb
  | succ w ih =>
      intro n b hb
      simp only [beBytes, List.mem_append, List.mem_singleton] at hb
      rcases hb with hb | hb
      · exact ih _ b hb
      · omega

theorem readBE_append_singleton (xs : List Nat) (b : Nat) :
    readBE (xs ++ [b]) = readBE xs * 256 + b := by
  simp [readBE, List.foldl_append]

theorem readBE_beBytes : ∀ w n, readBE (beBytes w n) = n % 256 ^ w := by
  intro w
  induction w with
  | zero =>
      intro n
      simp [beBytes, readBE, Nat.mod_one]
  | succ w ih =>
      intro n
      rw [beBytes, readBE_append_singleton, ih]
      have hmul : n % (256 * 256 ^ w) = n % 256 + 256 * (n / 256 % 256 ^ w) := Nat.mod_mul
      have hpow : (256 : Nat) ^ (w + 1) = 256 * 256 ^ w := by ring
      rw [hpow, hmul]
      ring

theorem u256_length (n : Nat) : (u256 n).length = 32 := beBytes_length 32 n

theorem u256_lt (n : Nat) : ∀ b ∈ u256 n, b < 256 := beBytes_lt 32 n

theorem pow256_32 : (256 : Nat) ^ 32 = 2 ^ 256 := by norm_num

theorem readBE_u256 {n : Nat} (h : n < 2 ^ 256) : readBE (u256 n) = n := by
  rw [u256, readBE_beBytes, pow256_32, Nat.mod_eq_of_lt h]

/-! ## Lemmas: list splitting -/

theorem take_split {α : Type} {l a b : List α} {n : Nat}
    (h : l.take (a.length + n) = a ++ b) (hb : b.length = n) :
    l.take a.length = a ∧ (l.drop a.length).take n = b ∧ a.length + n ≤ l.length := by
  have hlen : (l.take (a.length + n)).length = min (a.length + n) l.length :=
    List.length_take _ _
  rw [h, List.length_append, hb] at hlen
  have hle : a.length + n ≤ l.length := by omega
  rw [List.take_add] at h
  have hta : (l.take a.length).length = a.length := by
    rw [List.length_take]
    omega
  have := List.append_inj h (by rw [hta])
  exact ⟨this.1, this.2, hle⟩

/-! ## Lemmas: ABI encoding structure -/

theorem encParts_fst_length : ∀ (ts : List AbiType) (vs : List JsValue) (base tl : Nat)
    (p : List Nat × List Nat), encParts base ts vs tl = some p → p.1.length = 32 * ts.length := by
  intro ts
  induction ts with
  | nil =>
      intro vs base tl p h
      cases vs with
      | nil =>
          simp only [encParts, Option.some.injEq] at h
          subst h
          rfl
      | cons v vs =>
          simp only [encParts] at h
          exact Option.noConfusion h
  | cons t ts ih =>
      intro vs base tl p h
      cases vs with
      | nil =>
          cases t <;> simp only [encParts] at h <;> exact Option.noConfusion h
      | cons v vs =>
          cases t with
          | uintT =>
              cases v <;> try (simp only [encParts] at h; exact Option.noConfusion h)
              rename_i n
              simp only [encParts] at h
              split at h
              · cases hrec : encParts base ts vs tl with
                | none => rw [hrec] at h; simp at h
                | some q =>
                    rw [hrec] at h
                    simp only [Option.map_some', Option.some.injEq] at h
                    subst h
                    simp only [List.length_append, u256_length, ih vs base tl q hrec,
                      List.length_cons]
                    ring
              · exact Option.noConfusion h
          | boolT =>
              cases v <;> try (simp only [encParts] at h; exact Option.noConfusion h)
              rename_i b
              simp only [encParts] at h
              cases hrec : encParts base ts vs tl with
              | none => rw [hrec] at h; simp at h
              | some q =>
                  rw [hrec] at h
                  simp only [Option.map_some', Option.some.injEq] at h
                  subst h
                  simp only [List.length_append, u256_length, ih vs base tl q hrec,
                    List.length_cons]
                  ring
          | bytesT =>
              cases v <;> try (simp only [encParts] at h; exact Option.noConfusion h)
              rename_i s
              simp only [encParts] at h
              cases hp : parseHex s with
              | none => rw [hp] at h; exact Option.noConfusion h
              | some bs =>
                  rw [hp] at h
                  dsimp only [] at h
                  cases hrec : encParts base ts vs (tl + (32 + (padTo32 bs).length)) with
                  | none => rw [hrec] at h; simp at h
                  | some q =>
                      rw [hrec] at h
                      simp only [Option.map_some', Option.some.injEq] at h
                      subst h
                      simp only [List.length_append, u256_length,
                        ih vs base (tl + (32 + (padTo32 bs).length)) q hrec, List.length_cons]
                      ring

theorem encParts_all_lt : ∀ (ts : List AbiType) (vs : List JsValue) (base tl : Nat)
    (p : List Nat × List Nat), encParts base ts vs tl = some p →
    (∀ b ∈ p.1, b < 256) ∧ (∀ b ∈ p.2, b < 256) := by
  intro ts
  induction ts with
  | nil =>
      intro vs base tl p h
      cases vs with
      | nil =>
          simp only [encParts, Option.some.injEq] at h
          subst h
          exact ⟨by simp, by simp⟩
      | cons v vs =>
          simp only [encParts] at h
          exact Option.noConfusion h
  | cons t ts ih =>
      intro vs base tl p h
      cases vs with
      | nil =>
          cases t <;> simp only [encParts] at h <;> exact Option.noConfusion h
      | cons v vs =>
          cases t with
          | uintT =>
              cases v <;> try (simp only [encParts] at h; exact Option.noConfusion h)
              rename_i n
              simp only [encParts] at h
              split at h
              · cases hrec : encParts base ts vs tl with
                | none => rw [hrec] at h; simp at h
                | some q =>
                    rw [hrec] at h
                    simp only [Option.map_some', Option.some.injEq] at h
                    subst h
                    obtain ⟨ih1, ih2⟩ := ih vs base tl q hrec
                    refine ⟨?_, ih2⟩
                    intro b hb
                    rcases List.mem_append.mp hb with hb | hb
                    · exact u256_lt n b hb
                    · exact ih1 b hb
              · exact Option.noConfusion h
          | boolT =>
              cases v <;> try (simp only [encParts] at h; exact Option.noConfusion h)
              rename_i bb
              simp only [encParts] at h
              cases hrec : encParts base ts vs tl with
              | none => rw [hrec] at h; simp at h
              | some q =>
                  rw [hrec] at h
                  simp only [Option.map_some', Option.some.injEq] at h
                  subst h
                  obtain ⟨ih1, ih2⟩ := ih vs base tl q hrec
                  refine ⟨?_, ih2⟩
                  intro b hb
                  rcases List.mem_append.mp hb with hb | hb
                  · exact u256_lt _ b hb
                  · exact ih1 b hb
          | bytesT =>
              cases v <;> try (simp only [encParts] at h; exact Option.noConfusion h)
              rename_i s
              simp only [encParts] at h
              cases hp : parseHex s with
              | none => rw [hp] at h; exact Option.noConfusion h
              | some bs =>
                  rw [hp] at h
                  dsimp only [] at h
                  cases hrec : encParts base ts vs (tl + (32 + (padTo32 bs).length)) with
                  | none => rw [hrec] at h; simp at h
                  | some q =>
                      rw [hrec] at h
                      simp only [Option.map_some', Option.some.injEq] at h
                      subst h
                      obtain ⟨ih1, ih2⟩ := ih vs base _ q hrec
                      have hbs : ∀ b ∈ bs, b < 256 := (bytesToHexStr_parseHex hp).2
                      constructor
                      · intro b hb
                        rcases List.mem_append.mp hb with hb | hb
                        · exact u256_lt _ b hb
                        · exact ih1 b hb
                      · intro b hb
                        rcases List.mem_append.mp hb with hb | hb
                        · rcases List.mem_append.mp hb with hb | hb
                          · exact u256_lt _ b hb
                          · rcases List.mem_append.mp hb with hb | hb
                            · exact hbs b hb
                            · have := List.eq_of_mem_replicate hb
                              omega
                        · exact ih2 b hb

/-- Decoding inverts encoding: if `encParts` produced heads `hs` and tails `tls`
and `full` contains `hs` at `pos` and `tls` at `base + tl`, the decoder recovers
the arguments. -/
theorem decParts_of_encParts : ∀ (ts : List AbiType) (vs : List JsValue)
    (tl pos : Nat) (hs tls full : List Nat) (base : Nat),
    encParts base ts vs tl = some (hs, tls) →
    (full.drop pos).take (32 * ts.length) = hs →
    (full.drop (base + tl)).take tls.length = tls →
    base + tl + tls.length ≤ full.length →
    full.length < 2 ^ 256 →
    decParts full ts pos = some vs := by
  intro ts
  induction ts with
  | nil =>
      intro vs tl pos hs tls full base h _ _ _ _
      cases vs with
      | nil => rfl
      | cons v vs =>
          simp only [encParts] at h
          exact Option.noConfusion h
  | cons t ts ih =>
      intro vs tl pos hs tls full base h hheads htails hbound hbig
      cases vs with
      | nil =>
          cases t <;> simp only [encParts] at h <;> exact Option.noConfusion h
      | cons v vs =>
          cases t with
          | uintT =>
              cases v <;> try (simp only [encParts] at h; exact Option.noConfusion h)
              rename_i n
              simp only [encParts] at h
              split at h
              case isFalse => exact Option.noConfusion h
              case isTrue hn =>
              cases hrec : encParts base ts vs tl with
              | none => rw [hrec] at h; simp at h
              | some q =>
                  rw [hrec] at h
                  simp only [Option.map_some', Option.some.injEq, Prod.mk.injEq] at h
                  obtain ⟨hhs, htls⟩ := h
                  subst hhs
                  subst htls
                  simp only [List.length_cons] at hheads
                  have hq1len : q.1.length = 32 * ts.length :=
                    encParts_fst_length ts vs base tl q hrec
                  have hheads2 : (full.drop pos).take ((u256 n).length + 32 * ts.length)
                      = u256 n ++ q.1 := by
                    rw [u256_length, show 32 + 32 * ts.length = 32 * (ts.length + 1) from by
                      ring]
                    exact hheads
                  obtain ⟨hw, hrest, hsplit⟩ := take_split hheads2 hq1len
                  rw [u256_length] at hw hrest hsplit
                  rw [List.drop_drop] at hrest
                  rw [List.length_drop] at hsplit
                  have hpos32 : pos + 32 ≤ full.length := by omega
                  simp only [decParts]
                  rw [if_pos hpos32, hw, readBE_u256 hn,
                    ih vs tl (pos + 32) q.1 q.2 full base hrec hrest htails hbound hbig]
                  rfl
          | boolT =>
              cases v <;> try (simp only [encParts] at h; exact Option.noConfusion h)
              rename_i b
              simp only [encParts] at h
              cases hrec : encParts base ts vs tl with
              | none => rw [hrec] at h; simp at h
              | some q =>
                  rw [hrec] at h
                  simp only [Option.map_some', Option.some.injEq, Prod.mk.injEq] at h
                  obtain ⟨hhs, htls⟩ := h
                  subst hhs
                  subst htls
                  simp only [List.length_cons] at hheads
                  have hq1len : q.1.length = 32 * ts.length :=
                    encParts_fst_length ts vs base tl q hrec
                  have hheads2 : (full.drop pos).take
                      ((u256 (if b then 1 else 0)).length + 32 * ts.length)
                      = u256 (if b then 1 else 0) ++ q.1 := by
                    rw [u256_length, show 32 + 32 * ts.length = 32 * (ts.length + 1) from by
                      ring]
                    exact hheads
                  obtain ⟨hw, hrest, hsplit⟩ := take_split hheads2 hq1len
                  rw [u256_length] at hw hrest hsplit
                  rw [List.drop_drop] at hrest
                  rw [List.length_drop] at hsplit
                  have hpos32 : pos + 32 ≤ full.length := by omega
                  have hihres := ih vs tl (pos + 32) q.1 q.2 full base hrec hrest htails
                    hbound hbig
                  cases b with
                  | true =>
                      rw [if_pos rfl] at hw
                      simp only [decParts]
                      rw [if_pos hpos32, hw, readBE_u256 (show (1 : Nat) < 2 ^ 256 by
                        norm_num)]
                      rw [if_pos rfl, hihres]
                      rfl
                  | false =>
                      rw [if_neg (by simp)] at hw
                      simp only [decParts]
                      rw [if_pos hpos32, hw, readBE_u256 (show (0 : Nat) < 2 ^ 256 by
                        norm_num)]
                      rw [if_neg (by omega), if_pos rfl, hihres]
                      rfl
          | bytesT =>
              cases v <;> try (simp only [encParts] at h; exact Option.noConfusion h)
              rename_i s
              simp only [encParts] at h
              cases hp : parseHex s with
              | none => rw [hp] at h; exact Option.noConfusion h
              | some bs =>
                  rw [hp] at h
                  dsimp only [] at h
                  cases hrec : encParts base ts vs (tl + (32 + (padTo32 bs).length)) with
                  | none => rw [hrec] at h; simp at h
                  | some q =>
                      rw [hrec] at h
                      simp only [Option.map_some', Option.some.injEq, Prod.mk.injEq] at h
                      obtain ⟨hhs, htls⟩ := h
                      subst hhs
                      subst htls
                      simp only [List.length_cons] at hheads
                      have hq1len : q.1.length = 32 * ts.length :=
                        encParts_fst_length ts vs base _ q hrec
                      have hheads2 : (full.drop pos).take
                          ((u256 (base + tl)).length + 32 * ts.length)
                          = u256 (base + tl) ++ q.1 := by
                        rw [u256_length, show 32 + 32 * ts.length = 32 * (ts.length + 1) from
                          by ring]
                        exact hheads
                      obtain ⟨hw, hrest, hsplit⟩ := take_split hheads2 hq1len
                      rw [u256_length] at hw hrest hsplit
                      rw [List.drop_drop] at hrest
                      rw [List.length_drop] at hsplit
                      have hpos32 : pos + 32 ≤ full.length := by omega
                      -- split the tail area
                      have htails1 := htails
                      rw [List.length_append] at htails1
                      obtain ⟨hA, hB, hC⟩ := take_split htails1 rfl
                      have hchunklen : (u256 bs.length ++ padTo32 bs).length
                          = 32 + (padTo32 bs).length := by
                        simp [List.length_append, u256_length]
                      have hA2 : (full.drop (base + tl)).take
                          ((u256 bs.length).length + (padTo32 bs).length)
                          = u256 bs.length ++ padTo32 bs := by
                        rw [u256_length, ← hchunklen]
                        exact hA
                      obtain ⟨hD, hE, _⟩ := take_split hA2 rfl
                      rw [u256_length] at hD hE
                      rw [List.drop_drop] at hE
                      rw [padTo32] at hE
                      have hpadrep : (bs ++ List.replicate (padLen bs.length) 0).length
                          = bs.length + (List.replicate (padLen bs.length) (0 : Nat)).length :=
                        List.length_append _ _
                      rw [hpadrep] at hE
                      obtain ⟨hF, _, _⟩ := take_split hE rfl
                      -- numeric facts for omega
                      have hpadlen : (padTo32 bs).length
                          = bs.length + padLen bs.length := by
                        simp [padTo32, List.length_replicate]
                      rw [List.length_drop] at hC
                      rw [hchunklen] at hC
                      have hbt : base + tl < 2 ^ 256 := by omega
                      have hbslen : bs.length < 2 ^ 256 := by omega
                      -- run the decoder
                      simp only [decParts]
                      rw [if_pos hpos32, hw, readBE_u256 hbt]
                      rw [if_pos (show base + tl + 32 ≤ full.length by omega)]
                      rw [hD, readBE_u256 hbslen]
                      rw [if_pos (show base + tl + 32 + bs.length ≤ full.length by omega)]
                      rw [hF, (bytesToHexStr_parseHex hp).1]
                      have htails2 : (full.drop
                          (base + (tl + (32 + (padTo32 bs).length)))).take q.2.length
                          = q.2 := by
                        rw [show base + (tl + (32 + (padTo32 bs).length))
                            = base + tl + (32 + (padTo32 bs).length) from by ring]
                        rw [← hchunklen, ← List.drop_drop]
                        exact hB
                      have hbound2 : base + (tl + (32 + (padTo32 bs).length)) + q.2.length
                          ≤ full.length := by omega
                      rw [ih vs _ (pos + 32) q.1 q.2 full base hrec hrest htails2 hbound2
                        hbig]
                      rfl

/-- Registry-level round trip: decoding the encoding of `(e, args)` recovers
`e.name` and `args`, whenever `e` is the first registration-order match for its
selector. -/
theorem decodeErrorFn_encode {reg : List InterfaceEntry} {e : InterfaceEntry}
    {args : List JsValue} {s : String}
    (hfind : findEntry reg .errorK e.selector = some e)
    (hsel : e.selector.length = 4)
    (hselb : ∀ b ∈ e.selector, b < 256)
    (henc : encodeErrorData e args = some s)
    (hsz : s.data.length < 2 ^ 256) :
    decodeErrorFn reg s =
      some { errorName := e.name, args := if e.inputs.isEmpty then none else some args } := by
  unfold encodeErrorData at henc
  cases htup : encodeTuple e.inputs args with
  | none => rw [htup] at henc; exact Option.noConfusion henc
  | some tup =>
      rw [htup] at henc
      simp only [Option.map_some', Option.some.injEq] at henc
      subst henc
      unfold encodeTuple at htup
      cases hq : encParts (32 * e.inputs.length) e.inputs args 0 with
      | none => rw [hq] at htup; exact Option.noConfusion htup
      | some q =>
          rw [hq] at htup
          simp only [Option.map_some', Option.some.injEq] at htup
          subst htup
          have hqlt := encParts_all_lt e.inputs args (32 * e.inputs.length) 0 q hq
          have hblt : ∀ b ∈ e.selector ++ (q.1 ++ q.2), b < 256 := by
            intro b hb
            rcases List.mem_append.mp hb with hb | hb
            · exact hselb b hb
            · rcases List.mem_append.mp hb with hb | hb
              · exact hqlt.1 b hb
              · exact hqlt.2 b hb
          have hparse : parseHex (bytesToHexStr (e.selector ++ (q.1 ++ q.2)))
              = some (e.selector ++ (q.1 ++ q.2)) := parseHex_bytesToHexStr hblt
          have hfst : q.1.length = 32 * e.inputs.length :=
            encParts_fst_length e.inputs args (32 * e.inputs.length) 0 q hq
          have hslen : (bytesToHexStr (e.selector ++ (q.1 ++ q.2))).data.length
              = 2 + 2 * (e.selector ++ (q.1 ++ q.2)).length := by
            simp only [bytesToHexStr, List.length_cons, hexJoin_length]
            omega
          have hbig : (q.1 ++ q.2).length < 2 ^ 256 := by
            rw [hslen] at hsz
            simp only [List.length_append] at hsz ⊢
            omega
          unfold decodeErrorFn decodeErrorResultM
          rw [hparse]
          dsimp only []
          have hlen4 : ¬ ((e.selector ++ (q.1 ++ q.2)).length < 4) := by
            rw [List.length_append, hsel]
            omega
          rw [if_neg hlen4]
          rw [List.take_left' hsel, hfind]
          dsimp only []
          have hdec : decParts (q.1 ++ q.2) e.inputs 0 = some args := by
            refine decParts_of_encParts e.inputs args 0 0 q.1 q.2 (q.1 ++ q.2)
              (32 * e.inputs.length) ?_ ?_ ?_ ?_ hbig
            · rw [← Prod.mk.eta (p := q)] at hq
              exact hq
            · rw [List.drop_zero, ← hfst]
              exact List.take_left' rfl
            · rw [Nat.add_zero, ← hfst, List.drop_left]
              exact List.take_length q.2
            · simp only [List.length_append]
              omega
          rw [List.drop_left' hsel, hdec]

/-! ## Lemmas: handler dispatch -/

theorem handleViemError_rpc_eq (dec : String → Option DecodedError) (err : ViemError)
    (r : ViemNode) (hh : err.nodes.find? isHttpNode = none)
    (hr : err.nodes.find? isRpcNode = some r) :
    handleViemError dec err = rpcBranch dec r := by
  unfold handleViemError
  rw [hh]
  dsimp only []
  rw [hr]

theorem rpcBranch_contract_eq (dec : String → Option DecodedError) (r : ViemNode)
    (dR : DecodedError) (s : String)
    (hst : (extractRevert dec r.rdata).2 = some (.jsStr s))
    (hun : unwrapRevert dec (extractRevert dec r.rdata) = some dR)
    (hne : s ≠ "") :
    rpcBranch dec r =
      { type := .contract
        message := "Transaction reverted: " ++ jsOr dR.errorName "Unknown contract error" ++
          (if decide ((dR.args.getD []).length > 0) then
            " (" ++ joinArgs (dR.args.getD []) ++ ")" else "")
        details := some
          { selector := some (jsSlice10 s)
            data := some s
            decodedError := some dR
            rpcError := some { code := r.code, message := r.message, data := r.rdata } } } := by
  simp only [rpcBranch]
  rw [hun]
  dsimp only []
  rw [hst]
  simp only [candTake10, candStr, if_neg hne]

theorem rpcBranch_rpc_eq (dec : String → Option DecodedError) (r : ViemNode)
    (hun : unwrapRevert dec (extractRevert dec r.rdata) = none) :
    rpcBranch dec r =
      { type := .rpc
        message := jsOr r.shortMessage "RPC request failed"
        code := some r.code
        details := some
          { rpcError := some { code := r.code, message := r.message, data := r.rdata } } } := by
  simp only [rpcBranch]
  rw [hun]

/-- C3: the generic network record returned on an HTTP-transport match. -/
theorem handleViemError_http_general (dec : String → Option DecodedError) (err : ViemError)
    (h : ViemNode) (hh : err.nodes.find? isHttpNode = some h) :
    handleError dec (.viemErr err) =
      { type := .network
        message := "Network request failed"
        code := h.status
        details := some
          { rpcError := some { code := h.status.getD 0, message := h.message } } } := by
  show handleViemError dec err = _
  unfold handleViemError
  rw [hh]

/-- C3: for every chain-walkable failure in which the walk finds an
HTTP-transport node, classification returns type `network` with code equal to
the transport status and the generic message "Network request failed",
regardless of any JSON-RPC, contract-revert or execution-revert nodes also
present in the chain (the HTTP branch is dispatched first, before any revert
decode). -/
theorem c3_network_precedence (dec : String → Option DecodedError) (err : ViemError)
    (h : ViemNode) (hh : err.nodes.find? isHttpNode = some h) :
    (handleError dec (.viemErr err)).type = .network ∧
      (handleError dec (.viemErr err)).message = "Network request failed" ∧
      (handleError dec (.viemErr err)).code = h.status := by
  rw [handleViemError_http_general dec err h hh]
  exact ⟨rfl, rfl, rfl⟩

/-- C3 witness: a chain whose only walkable node is an HTTP transport node with
status 503 classifies as `network` with code 503. -/
theorem c3_witness :
    (handleError decDemo (.viemErr demoHttpErr)).type = .network ∧
      (handleError decDemo (.viemErr demoHttpErr)).message = "Network request failed" ∧
      (handleError decDemo (.viemErr demoHttpErr)).code = some 503 :=
  c3_network_precedence decDemo demoHttpErr
    { kind := .httpK, status := some 503, message := "http fail" } (by decide)

/-- C5: classification is total — `handleError` is a total function into records
whose `type` is one of the five terminal states, and an arbitrary non-error
value lands in `unknown`. -/
theorem c5_classification_total (dec : String → Option DecodedError) (f : FailureModel) :
    ((handleError dec f).type = .network ∨ (handleError dec f).type = .rpc ∨
      (handleError dec f).type = .contract ∨ (handleError dec f).type = .validation ∨
      (handleError dec f).type = .unknown) ∧
      (∀ s, (handleError dec (.otherVal s)).type = .unknown) := by
  constructor
  · cases h : (handleError dec f).type
    · exact Or.inl rfl
    · exact Or.inr (Or.inl rfl)
    · exact Or.inr (Or.inr (Or.inl rfl))
    · exact Or.inr (Or.inr (Or.inr (Or.inl rfl)))
    · exact Or.inr (Or.inr (Or.inr (Or.inr rfl)))
  · intro s
    rfl

/-- C6: a plain error's message is inspected in source order — "fetch"/"network"
first (network), then "Missing required fields"/"Invalid" (validation, raw
message preserved), else unknown with the raw message. -/
theorem c6_standard_error_order :
    (∀ (dec : String → Option DecodedError) (m : String),
      (jsIncludes m "fetch" || jsIncludes m "network") = true →
      (handleError dec (.stdErr m)).type = .network) ∧
    (∀ (dec : String → Option DecodedError) (m : String),
      (jsIncludes m "fetch" || jsIncludes m "network") = false →
      (jsIncludes m "Missing required fields" || jsIncludes m "Invalid") = true →
      handleError dec (.stdErr m) = { type := .validation, message := m }) ∧
    (∀ (dec : String → Option DecodedError) (m : String),
      (jsIncludes m "fetch" || jsIncludes m "network") = false →
      (jsIncludes m "Missing required fields" || jsIncludes m "Invalid") = false →
      handleError dec (.stdErr m) = { type := .unknown, message := m }) := by
  refine ⟨?_, ?_, ?_⟩
  · intro dec m h1
    show (handleStandardError m).type = .network
    unfold handleStandardError
    rw [if_pos h1]
  · intro dec m h1 h2
    show handleStandardError m = _
    unfold handleStandardError
    rw [if_neg (by simp [h1]), if_pos h2]
  · intro dec m h1 h2
    show handleStandardError m = _
    unfold handleStandardError
    rw [if_neg (by simp [h1]), if_neg (by simp [h2])]

/-- C6 witness: the message "Missing required fields: to and data" classifies as
`validation` with the raw message. -/
theorem c6_witness :
    handleError decDemo (.stdErr "Missing required fields: to and data") =
      { type := .validation, message := "Missing required fields: to and data" } :=
  c6_standard_error_order.2.1 decDemo "Missing required fields: to and data"
    (by decide) (by decide)

/-- C7: decode operations return typed failures and never raise — error decoding
of anything shorter than a 4-byte selector yields `none`, and call-data decoding
of an unrecognized selector yields the partial-information failure object
carrying `data.slice(0, 10)` and the raw data. -/
theorem c7_decode_typed_failure :
    (∀ (reg : List InterfaceEntry) (s : String), s.data.length < 10 →
      decodeErrorFn reg s = none) ∧
    (∀ (reg : List InterfaceEntry) (s : String) (blob : List Nat),
      parseHex s = some blob →
      findEntry reg .functionK (blob.take 4) = none →
      decodeCallData reg s = .failure "unknown" [] (jsSlice10 s) s) := by
  constructor
  · intro reg s hlen
    unfold decodeErrorFn decodeErrorResultM
    cases hp : parseHex s with
    | none => rfl
    | some blob =>
        have := parseHex_length hp
        dsimp only []
        rw [if_pos (by omega)]
  · intro reg s blob hp hfind
    unfold decodeCallData decodeFunctionDataM
    rw [hp]
    dsimp only []
    by_cases hb : blob.length < 4
    · rw [if_pos hb]
    · rw [if_neg hb, hfind]

/-- C7 witness: a 1-byte input fails error decoding, and an unknown selector
yields the failure object carrying that selector. -/
theorem c7_witness :
    decodeErrorFn allABIsModel "0x12" = none ∧
      decodeCallData allABIsModel "0xdeadbeef" =
        .failure "unknown" [] "0xdeadbeef" "0xdeadbeef" := by
  constructor
  · exact c7_decode_typed_failure.1 allABIsModel "0x12" (by decide)
  · exact c7_decode_typed_failure.2 allABIsModel "0xdeadbeef" [222, 173, 190, 239]
      (by decide) (by decide)

/-- C8: round trip over the merged registry — for every error entry of
`allABIsModel` and every argument tuple that the entry's parameter types accept
(i.e. `encode` succeeds, with the encoding shorter than the 2^256-offset
horizon), decoding the encoding recovers the entry name and the arguments
(`args` is viem's `undefined` for a parameterless entry). -/
theorem c8_roundtrip : ∀ e ∈ allABIsModel, e.kind = .errorK →
    ∀ (args : List JsValue) (s : String),
    encodeErrorData e args = some s → s.data.length < 2 ^ 256 →
    decodeErrorFn allABIsModel s =
      some { errorName := e.name, args := if e.inputs.isEmpty then none else some args } := by
  intro e he hk args s henc hsz
  fin_cases he
  · exact absurd hk (by decide)
  · exact decodeErrorFn_encode (by decide) (by decide) (by decide) henc hsz
  · exact decodeErrorFn_encode (by decide) (by decide) (by decide) henc hsz
  · exact decodeErrorFn_encode (by decide) (by decide) (by decide) henc hsz
  · exact decodeErrorFn_encode (by decide) (by decide) (by decide) henc hsz

/-- C8 witness: encoding `InnerError(42)` and decoding it back recovers the name
and the argument. -/
theorem c8_witness :
    encodeErrorData innerEntry [.jsBigInt 42] = some demoInnerHex ∧
      decodeErrorFn allABIsModel demoInnerHex =
        some { errorName := "InnerError", args := some [.jsBigInt 42] } := by
  refine ⟨by decide, ?_⟩
  exact c8_roundtrip innerEntry (by decide) (by decide) [.jsBigInt 42] demoInnerHex
    (by decide) (by decide)

/-! ## Lemmas: the bounded walk -/

theorem chainSeq_shift (cause : Nat → Option Nat) (start : Nat) :
    ∀ j, chainSeq cause start (j + 1) = (cause start).bind (fun m => chainSeq cause m j) := by
  intro j
  induction j with
  | zero =>
      simp only [chainSeq, Option.bind]
      cases cause start <;> rfl
  | succ j ih =>
      show (chainSeq cause start (j + 1)).bind cause = _
      rw [ih]
      cases cause start with
      | none => rfl
      | some m => rfl

theorem walkGo_first : ∀ (fuel : Nat) (cause : Nat → Option Nat) (p : Nat → Bool)
    (start i n : Nat),
    (∀ j, j < i → ∀ m, chainSeq cause start j = some m → p m = false) →
    chainSeq cause start i = some n → p n = true → i < fuel →
    walkGo cause p fuel start = some n := by
  intro fuel
  induction fuel with
  | zero =>
      intro cause p start i n _ _ _ hlt
      omega
  | succ fuel ih =>
      intro cause p start i n hfirst hseq hp hlt
      cases i with
      | zero =>
          simp only [chainSeq, Option.some.injEq] at hseq
          subst hseq
          simp only [walkGo, hp, if_true]
      | succ i =>
          have hstart : p start = false := hfirst 0 (by omega) start rfl
          rw [chainSeq_shift] at hseq
          cases hc : cause start with
          | none => rw [hc] at hseq; exact Option.noConfusion hseq
          | some m =>
              rw [hc] at hseq
              simp only [Option.some_bind] at hseq
              have hfirst2 : ∀ j, j < i → ∀ m2, chainSeq cause m j = some m2 →
                  p m2 = false := by
                intro j hj m2 hm2
                refine hfirst (j + 1) (by omega) m2 ?_
                rw [chainSeq_shift, hc]
                simpa using hm2
              simp only [walkGo, hstart, Bool.false_eq_true, if_false, hc]
              exact ih cause p m i n hfirst2 hseq hp (by omega)

theorem walkGo_none : ∀ (fuel : Nat) (cause : Nat → Option Nat) (p : Nat → Bool) (start : Nat),
    (∀ i, i < fuel → ∀ m, chainSeq cause start i = some m → p m = false) →
    walkGo cause p fuel start = none := by
  intro fuel
  induction fuel with
  | zero => intro cause p start _; rfl
  | succ fuel ih =>
      intro cause p start hall
      have hstart : p start = false := hall 0 (by omega) start rfl
      simp only [walkGo, hstart, Bool.false_eq_true, if_false]
      cases hc : cause start with
      | none => rfl
      | some m =>
          refine ih cause p m ?_
          intro i hi m2 hm2
          refine hall (i + 1) (by omega) m2 ?_
          rw [chainSeq_shift, hc]
          simpa using hm2

/-- C9: the bounded chain walk returns the first node along the cause relation
satisfying the predicate when one exists within the 16-hop cap, and terminates
with `none` when no node within the cap satisfies it — in particular on cyclic
chains, which keep producing nodes forever. -/
theorem c9_walk_bounded :
    (∀ (cause : Nat → Option Nat) (p : Nat → Bool) (start i n : Nat),
      (∀ j, j < i → ∀ m, chainSeq cause start j = some m → p m = false) →
      chainSeq cause start i = some n → p n = true → i < 16 →
      walkModel cause p start = some n) ∧
    (∀ (cause : Nat → Option Nat) (p : Nat → Bool) (start : Nat),
      (∀ i, i < 16 → ∀ m, chainSeq cause start i = some m → p m = false) →
      walkModel cause p start = none) := by
  constructor
  · intro cause p start i n hfirst hseq hp hlt
    exact walkGo_first 16 cause p start i n hfirst hseq hp hlt
  · intro cause p start hall
    exact walkGo_none 16 cause p start hall

/-- C9 witness: on the chain 0 → 1 → 2 → … the walk finds the first node equal
to 2 (at depth 2), and on the cyclic chain n → n with an unsatisfiable
predicate it terminates with `none`. -/
theorem c9_witness :
    walkModel (fun n => some (n + 1)) (fun m => m == 2) 0 = some 2 ∧
      walkModel (fun _ => none) (fun _ => false) 0 = none ∧
      walkModel (fun n => some n) (fun _ => false) 0 = none := by
  refine ⟨?_, ?_, ?_⟩
  · refine c9_walk_bounded.1 (fun n => some (n + 1)) (fun m => m == 2) 0 2 2 ?_ (by decide)
      (by decide) (by decide)
    intro j hj m hm
    interval_cases j <;> simp_all [chainSeq] <;> omega
  · refine c9_walk_bounded.2 (fun _ => none) (fun _ => false) 0 ?_
    intro i _ m _
    rfl
  · refine c9_walk_bounded.2 (fun n => some n) (fun _ => false) 0 ?_
    intro i _ m _
    rfl

/-- C10: with no HTTP node and a matched RPC node whose data normalizes to a hex
string of at most 2 characters, no decode succeeds and the result is the `rpc`
record with the RPC code and short message (or "RPC request failed"). -/
theorem c10_empty_payload_rpc (dec : String → Option DecodedError) (err : ViemError)
    (r : ViemNode) (s : String)
    (hh : err.nodes.find? isHttpNode = none)
    (hr : err.nodes.find? isRpcNode = some r)
    (hst : extractRevert dec r.rdata = (none, some (.jsStr s)))
    (hlen : s.data.length ≤ 2) :
    handleError dec (.viemErr err) =
      { type := .rpc
        message := jsOr r.shortMessage "RPC request failed"
        code := some r.code
        details := some
          { rpcError := some { code := r.code, message := r.message, data := r.rdata } } } := by
  have hun : unwrapRevert dec (extractRevert dec r.rdata) = none := by
    rw [hst]
    unfold unwrapRevert
    dsimp only []
    have hc : lenGt2 (.jsStr s) = false := by
      simp only [lenGt2, decide_eq_false_iff_not]
      omega
    rw [hc, Bool.and_false, if_neg (by simp)]
  show handleViemError dec err = _
  rw [handleViemError_rpc_eq dec err r hh hr, rpcBranch_rpc_eq dec r hun]

/-- C10 witness: an RPC failure with code -32000, empty short message and data
exactly "0x" yields `rpc` with code -32000 and message "RPC request failed". -/
theorem c10_witness :
    handleError decDemo (.viemErr demoEmptyDataRpcErr) =
      { type := .rpc
        message := "RPC request failed"
        code := some (-32000)
        details := some
          { rpcError := some
              { code := -32000, message := "rpc m", data := some (.jsStr "0x") } } } := by
  have h := c10_empty_payload_rpc decDemo demoEmptyDataRpcErr
    { kind := .rpcK, code := -32000, shortMessage := "", message := "rpc m",
      rdata := some (.jsStr "0x") } "0x" (by decide) (by decide) (by decide) (by decide)
  rw [h]
  rfl

/-! ## Lemmas: the FailedCallWithMessage unwrap -/

/-- When the candidate revert data is a decodable hex string, phase 2 reduces to
the `FailedCallWithMessage` analysis of the decode result. -/
theorem unwrapRevert_eq_of_dec (dec : String → Option DecodedError)
    (st : Option DecodedError × Option JsValue) (s : String) (d : DecodedError)
    (hst : st.2 = some (.jsStr s)) (hne : s ≠ "") (hgt : s.data.length > 2)
    (hdec : dec s = some d) :
    unwrapRevert dec st =
      (if fcwmCheck d then
        match d.args with
        | some (a0 :: _) =>
            match a0 with
            | .jsStr s0 =>
                if startsWith0x s0 then
                  match dec s0 with
                  | some inner => some inner
                  | none => some d
                else some d
            | _ => some d
        | _ => some d
      else some d) := by
  unfold unwrapRevert
  rw [hst]
  dsimp only []
  have hc : (truthy (.jsStr s) && lenGt2 (.jsStr s)) = true := by
    simp only [truthy, lenGt2, Bool.and_eq_true, decide_eq_true_iff, ne_eq]
    constructor
    · intro hE
      subst hE
      simp at hgt
    · omega
  rw [if_pos hc, hdec]

/-- Phase-2 unwrap with a `FailedCallWithMessage` wrapper whose argument 0 is a
hex string that decodes: the inner decode wins. -/
theorem unwrapRevert_fcwm_inner (dec : String → Option DecodedError)
    (st : Option DecodedError × Option JsValue) (s s0 : String)
    (dOut inner : DecodedError) (rest : List JsValue)
    (hst : st.2 = some (.jsStr s)) (hne : s ≠ "") (hgt : s.data.length > 2)
    (hdec : dec s = some dOut)
    (hname : dOut.errorName = "FailedCallWithMessage")
    (hargs : dOut.args = some (.jsStr s0 :: rest))
    (h0x : startsWith0x s0 = true)
    (hinner : dec s0 = some inner) :
    unwrapRevert dec st = some inner := by
  rw [unwrapRevert_eq_of_dec dec st s dOut hst hne hgt hdec]
  have hchk : fcwmCheck dOut = true := by
    simp [fcwmCheck, hname, hargs]
  rw [if_pos hchk, hargs]
  dsimp only []
  rw [if_pos h0x, hinner]

/-- Phase-2 unwrap with a `FailedCallWithMessage` wrapper whose argument 0 is a
hex string that does not decode: the outer wrapper is kept. -/
theorem unwrapRevert_fcwm_noinner (dec : String → Option DecodedError)
    (st : Option DecodedError × Option JsValue) (s s0 : String)
    (dOut : DecodedError) (rest : List JsValue)
    (hst : st.2 = some (.jsStr s)) (hne : s ≠ "") (hgt : s.data.length > 2)
    (hdec : dec s = some dOut)
    (hname : dOut.errorName = "FailedCallWithMessage")
    (hargs : dOut.args = some (.jsStr s0 :: rest))
    (h0x : startsWith0x s0 = true)
    (hinner : dec s0 = none) :
    unwrapRevert dec st = some dOut := by
  rw [unwrapRevert_eq_of_dec dec st s dOut hst hne hgt hdec]
  have hchk : fcwmCheck dOut = true := by
    simp [fcwmCheck, hname, hargs]
  rw [if_pos hchk, hargs]
  dsimp only []
  rw [if_pos h0x, hinner]

/-- C4 (amended): on a JSON-RPC match with a successful revert unwrap, the
result is `contract` with message `"Transaction reverted: <errorName>"` followed
— when there is at least one argument — by a space and the parenthesized
arguments joined with ", ", and details carrying the selector
(`data.slice(0, 10)`), the raw data, the DecodedError and the originating RPC
code/message/data. -/
theorem c4_amended_message_format (dec : String → Option DecodedError) (err : ViemError)
    (r : ViemNode) (dR : DecodedError) (s : String)
    (hh : err.nodes.find? isHttpNode = none)
    (hr : err.nodes.find? isRpcNode = some r)
    (hst : (extractRevert dec r.rdata).2 = some (.jsStr s))
    (hun : unwrapRevert dec (extractRevert dec r.rdata) = some dR)
    (hne : s ≠ "") :
    handleError dec (.viemErr err) =
      { type := .contract
        message := "Transaction reverted: " ++ jsOr dR.errorName "Unknown contract error" ++
          (if decide ((dR.args.getD []).length > 0) then
            " (" ++ joinArgs (dR.args.getD []) ++ ")" else "")
        details := some
          { selector := some (jsSlice10 s)
            data := some s
            decodedError := some dR
            rpcError := some { code := r.code, message := r.message, data := r.rdata } } } := by
  show handleViemError dec err = _
  rw [handleViemError_rpc_eq dec err r hh hr,
    rpcBranch_contract_eq dec r dR s hst hun hne]

/-- C4 counterexample: a JSON-RPC failure decoding to `InnerError(42)` produces
the message "Transaction reverted: InnerError (42)" — with a space between the
error name and the argument list — not the claimed
"Transaction reverted: InnerError(42)" with the name immediately followed by
the parenthesis. -/
theorem c4_counterexample :
    (handleError decDemo (.viemErr demoInnerRpcErr)).type = .contract ∧
      uDecodedError (handleError decDemo (.viemErr demoInnerRpcErr)) = some innerDecoded ∧
      (handleError decDemo (.viemErr demoInnerRpcErr)).message
        = "Transaction reverted: InnerError (42)" ∧
      (handleError decDemo (.viemErr demoInnerRpcErr)).message
        ≠ "Transaction reverted: InnerError(42)" := by
  refine ⟨by decide, by decide, by decide, by decide⟩

/-- C4 witness: the amended message/details shape at a concrete RPC failure. -/
theorem c4_witness :
    handleError decDemo (.viemErr demoInnerRpcErr) =
      { type := .contract
        message := "Transaction reverted: InnerError (42)"
        details := some
          { selector := some "0xaabbccdd"
            data := some demoInnerHex
            decodedError := some innerDecoded
            rpcError := some
              { code := 3, message := "rpc msg",
                data := some (.jsObjData (.jsStr demoInnerHex)) } } } := by
  have h := c4_amended_message_format decDemo demoInnerRpcErr
    { kind := .rpcK, message := "rpc msg", code := 3,
      rdata := some (.jsObjData (.jsStr demoInnerHex)) }
    innerDecoded demoInnerHex (by decide) (by decide) (by decide) (by decide) (by decide)
  rw [h]
  decide

/-! ## Lemmas: the nested argument scan (RPC phase 1) -/

/-- What a successful scan guarantees about the argument it picked. -/
theorem scanArgs_spec (dec : String → Option DecodedError) :
    ∀ (l : List JsValue) (nested : DecodedError) (a : String),
    scanArgs dec l = some (nested, a) →
    startsWith0x a = true ∧ a.data.length ≥ 10 ∧ dec a = some nested := by
  intro l
  induction l with
  | nil => intro nested a h; exact Option.noConfusion h
  | cons v rest ih =>
      intro nested a h
      cases v with
      | jsStr s =>
          simp only [scanArgs] at h
          by_cases hcond : (startsWith0x s && decide (s.data.length ≥ 10)) = true
          · rw [if_pos hcond] at h
            cases hd : dec s with
            | none =>
                rw [hd] at h
                exact ih nested a h
            | some d =>
                rw [hd] at h
                simp only [Option.some.injEq, Prod.mk.injEq] at h
                obtain ⟨h1, h2⟩ := h
                subst h1
                subst h2
                simp only [Bool.and_eq_true, decide_eq_true_iff] at hcond
                exact ⟨hcond.1, hcond.2, hd⟩
          · rw [if_neg hcond] at h
            exact ih nested a h
      | jsBigInt n => exact ih nested a (by simpa only [scanArgs] using h)
      | jsBool b => exact ih nested a (by simpa only [scanArgs] using h)
      | jsObjData d => exact ih nested a (by simpa only [scanArgs] using h)
      | jsObjPlain => exact ih nested a (by simpa only [scanArgs] using h)

/-- Phase 1 on a long direct hex string whose wrapper pre-decode has arguments:
the scan result replaces both the decoded revert and the candidate data. -/
theorem extractRevert_scan (dec : String → Option DecodedError) (s : String)
    (d nested : DecodedError) (argsL : List JsValue) (a : String)
    (h0x : startsWith0x s = true)
    (hne : s ≠ "")
    (hbig : s.data.length > 138)
    (hdec : dec s = some d)
    (hargs : d.args = some argsL)
    (hlen : argsL.length > 0)
    (hscan : scanArgs dec argsL = some (nested, a)) :
    extractRevert dec (some (.jsStr s)) = (some nested, some (.jsStr a)) := by
  unfold extractRevert
  try dsimp only []
  have ht : truthy (.jsStr s) = true := by simp [truthy, hne]
  rw [if_pos ht]
  try dsimp only []
  rw [if_pos h0x, if_pos (decide_eq_true hbig), hdec]
  try dsimp only []
  rw [hargs]
  try dsimp only []
  rw [if_pos (decide_eq_true hlen), hscan]

/-- A decodable candidate always yields a decoded revert in phase 2. -/
theorem unwrapRevert_isSome_of_dec (dec : String → Option DecodedError)
    (st : Option DecodedError × Option JsValue) (s : String) (d : DecodedError)
    (hst : st.2 = some (.jsStr s)) (hne : s ≠ "") (hgt : s.data.length > 2)
    (hdec : dec s = some d) :
    ∃ dR, unwrapRevert dec st = some dR := by
  rw [unwrapRevert_eq_of_dec dec st s d hst hne hgt hdec]
  by_cases hchk : fcwmCheck d = true
  · rw [if_pos hchk]
    cases hargs : d.args with
    | none => exact ⟨d, rfl⟩
    | some l =>
        cases l with
        | nil => exact ⟨d, rfl⟩
        | cons a0 rest =>
            cases a0 with
            | jsStr s0 =>
                dsimp only []
                by_cases h0x : startsWith0x s0 = true
                · rw [if_pos h0x]
                  cases hi0 : dec s0 with
                  | none => exact ⟨d, rfl⟩
                  | some inner => exact ⟨inner, rfl⟩
                · rw [if_neg h0x]
                  exact ⟨d, rfl⟩
            | jsBigInt n => exact ⟨d, rfl⟩
            | jsBool b => exact ⟨d, rfl⟩
            | jsObjData dd => exact ⟨d, rfl⟩
            | jsObjPlain => exact ⟨d, rfl⟩
  · rw [if_neg hchk]
    exact ⟨d, rfl⟩

/-- C2: whenever the RPC candidate revert data is a direct hex string longer
than 138 characters, the wrapper pre-decode runs and — when it yields arguments
and the in-order scan finds a first argument that is a hex string of length at
least 10 and itself decodes — that argument replaces the candidate: the final
record is `contract`, and its reported `details.data` and `details.selector`
come from the scanned argument (and from nothing deeper: the scan runs exactly
once, so the reported data is the argument itself). -/
theorem c2_nested_scan_replace (dec : String → Option DecodedError) (err : ViemError)
    (r : ViemNode) (s : String) (d nested : DecodedError) (argsL : List JsValue) (a : String)
    (hh : err.nodes.find? isHttpNode = none)
    (hr : err.nodes.find? isRpcNode = some r)
    (hdata : r.rdata = some (.jsStr s))
    (h0x : startsWith0x s = true)
    (hbig : s.data.length > 138)
    (hdec : dec s = some d)
    (hargs : d.args = some argsL)
    (hlen : argsL.length > 0)
    (hscan : scanArgs dec argsL = some (nested, a)) :
    ∃ dR, unwrapRevert dec (some nested, some (.jsStr a)) = some dR ∧
      handleError dec (.viemErr err) =
        { type := .contract
          message := "Transaction reverted: " ++ jsOr dR.errorName "Unknown contract error" ++
            (if decide ((dR.args.getD []).length > 0) then
              " (" ++ joinArgs (dR.args.getD []) ++ ")" else "")
          details := some
            { selector := some (jsSlice10 a)
              data := some a
              decodedError := some dR
              rpcError := some { code := r.code, message := r.message, data := r.rdata } } } := by
  have hne : s ≠ "" := by
    intro hE
    subst hE
    simp at hbig
  obtain ⟨ha0x, halen, hadec⟩ := scanArgs_spec dec argsL nested a hscan
  have hane : a ≠ "" := by
    intro hE
    subst hE
    simp at halen
  have hstfull : extractRevert dec r.rdata = (some nested, some (.jsStr a)) := by
    rw [hdata]
    exact extractRevert_scan dec s d nested argsL a h0x hne hbig hdec hargs hlen hscan
  obtain ⟨dR, hun⟩ := unwrapRevert_isSome_of_dec dec (some nested, some (.jsStr a)) a nested
    rfl hane (by omega) hadec
  refine ⟨dR, hun, ?_⟩
  show handleViemError dec err = _
  rw [handleViemError_rpc_eq dec err r hh hr]
  refine rpcBranch_contract_eq dec r dR a ?_ ?_ hane
  · rw [hstfull]
  · rw [hstfull]
    exact hun

/-- C2 witness: the wrapped demo payload (266 hex characters) has its single
argument scanned out; the reported data and selector are the inner payload's. -/
theorem c2_witness :
    ∃ dR, unwrapRevert decDemo (some innerDecoded, some (.jsStr demoInnerHex)) = some dR ∧
      handleError decDemo (.viemErr demoScanRpcErr) =
        { type := .contract
          message := "Transaction reverted: " ++ jsOr dR.errorName "Unknown contract error" ++
            (if decide ((dR.args.getD []).length > 0) then
              " (" ++ joinArgs (dR.args.getD []) ++ ")" else "")
          details := some
            { selector := some (jsSlice10 demoInnerHex)
              data := some demoInnerHex
              decodedError := some dR
              rpcError := some
                { code := 7, message := "m", data := some (.jsStr demoOuterHex) } } } := by
  exact c2_nested_scan_replace decDemo demoScanRpcErr
    { kind := .rpcK, code := 7, message := "m", rdata := some (.jsStr demoOuterHex) }
    demoOuterHex outerDecoded innerDecoded [.jsStr demoInnerHex] demoInnerHex
    (by decide) (by decide) (by decide) (by decide) (by decide) (by decide) (by decide)
    (by decide) (by decide)

/-! ## Lemmas: the contract-revert branch -/

theorem handleViemError_contract_eq (dec : String → Option DecodedError) (err : ViemError)
    (c : ViemNode)
    (hh : err.nodes.find? isHttpNode = none)
    (hrn : err.nodes.find? isRpcNode = none)
    (hc : err.nodes.find? isContractNode = some c) :
    handleViemError dec err =
      { type := .contract
        message := (decodeContractError dec c).message
        details := some
          { selector := (decodeContractError dec c).selector
            data := (decodeContractError dec c).data
            decodedError := (decodeContractError dec c).decodedError
            nestedErrors := (decodeContractError dec c).nestedErrors } } := by
  unfold handleViemError
  rw [hh]
  try dsimp only []
  rw [hrn]
  try dsimp only []
  rw [hc]

theorem decodeContractError_fcwm_inner (dec : String → Option DecodedError) (c : ViemNode)
    (es : String) (dOut nd : DecodedError) (a0 : JsValue) (rest : List JsValue)
    (hreason : c.reason = none)
    (hdata : c.rdata = some (.jsStr es))
    (hnes : es ≠ "")
    (hdecE : dec es = some dOut)
    (hname : dOut.errorName = "FailedCallWithMessage")
    (hargs : dOut.args = some (a0 :: rest))
    (htr : truthy a0 = true)
    (hinner : decJs dec a0 = some nd) :
    decodeContractError dec c =
      { message := "Contract reverted: " ++ nd.errorName
        selector := some (jsSlice10 es)
        data := some es
        decodedError := some dOut
        nestedErrors := some
          [ { ntype := "contract"
              nmessage := jsOr nd.errorName "Unknown nested error"
              ndecodedError := some nd } ] } := by
  unfold decodeContractError
  rw [hreason]
  rw [if_neg (by simp)]
  rw [hdata]
  try dsimp only []
  rw [if_pos (by simp [truthy, hnes])]
  try dsimp only []
  rw [hdecE]
  try dsimp only []
  have hcond : (dOut.errorName == "FailedCallWithMessage" &&
      (match dOut.args with | some (a0 :: _) => truthy a0 | _ => false)) = true := by
    rw [hname, hargs]
    simp [htr]
  rw [if_pos hcond, hargs]
  try dsimp only []
  rw [hinner]

theorem decodeContractError_fcwm_noinner (dec : String → Option DecodedError) (c : ViemNode)
    (es : String) (dOut : DecodedError) (a0 : JsValue) (rest : List JsValue)
    (hreason : c.reason = none)
    (hdata : c.rdata = some (.jsStr es))
    (hnes : es ≠ "")
    (hdecE : dec es = some dOut)
    (hname : dOut.errorName = "FailedCallWithMessage")
    (hargs : dOut.args = some (a0 :: rest))
    (htr : truthy a0 = true)
    (hinner : decJs dec a0 = none) :
    decodeContractError dec c = contractOuterResult dOut es := by
  unfold decodeContractError
  rw [hreason]
  rw [if_neg (by simp)]
  rw [hdata]
  try dsimp only []
  rw [if_pos (by simp [truthy, hnes])]
  try dsimp only []
  rw [hdecE]
  try dsimp only []
  have hcond : (dOut.errorName == "FailedCallWithMessage" &&
      (match dOut.args with | some (a0 :: _) => truthy a0 | _ => false)) = true := by
    rw [hname, hargs]
    simp [htr]
  rw [if_pos hcond, hargs]
  try dsimp only []
  rw [hinner]

/-- C1 (amended): whenever the decoded revert is the `FailedCallWithMessage`
wrapper with a first argument that is a hex string, one further decode pass runs
on argument 0.  On success the inner error becomes the effective decoded error
for the user-facing message; in the JSON-RPC branch the inner error also
replaces the wrapper in `details.decodedError`, while in the contract-revert
branch the wrapper stays in `details.decodedError` and the inner error is
recorded in `details.nestedErrors`.  On failure the wrapper remains the
effective decoded error in both branches. -/
theorem c1_amended_wrapper_unwrap :
    (∀ (dec : String → Option DecodedError) (err : ViemError) (r : ViemNode)
        (s s0 : String) (dOut inner : DecodedError) (rest : List JsValue),
      err.nodes.find? isHttpNode = none →
      err.nodes.find? isRpcNode = some r →
      (extractRevert dec r.rdata).2 = some (.jsStr s) →
      s ≠ "" → s.data.length > 2 →
      dec s = some dOut →
      dOut.errorName = "FailedCallWithMessage" →
      dOut.args = some (.jsStr s0 :: rest) →
      startsWith0x s0 = true →
      dec s0 = some inner →
      (handleError dec (.viemErr err)).type = .contract ∧
        uDecodedError (handleError dec (.viemErr err)) = some inner ∧
        (handleError dec (.viemErr err)).message =
          "Transaction reverted: " ++ jsOr inner.errorName "Unknown contract error" ++
            (if decide ((inner.args.getD []).length > 0) then
              " (" ++ joinArgs (inner.args.getD []) ++ ")" else "")) ∧
    (∀ (dec : String → Option DecodedError) (err : ViemError) (r : ViemNode)
        (s s0 : String) (dOut : DecodedError) (rest : List JsValue),
      err.nodes.find? isHttpNode = none →
      err.nodes.find? isRpcNode = some r →
      (extractRevert dec r.rdata).2 = some (.jsStr s) →
      s ≠ "" → s.data.length > 2 →
      dec s = some dOut →
      dOut.errorName = "FailedCallWithMessage" →
      dOut.args = some (.jsStr s0 :: rest) →
      startsWith0x s0 = true →
      dec s0 = none →
      (handleError dec (.viemErr err)).type = .contract ∧
        uDecodedError (handleError dec (.viemErr err)) = some dOut) ∧
    (∀ (dec : String → Option DecodedError) (err : ViemError) (c : ViemNode)
        (es : String) (dOut nd : DecodedError) (a0 : JsValue) (rest : List JsValue),
      err.nodes.find? isHttpNode = none →
      err.nodes.find? isRpcNode = none →
      err.nodes.find? isContractNode = some c →
      c.reason = none →
      c.rdata = some (.jsStr es) →
      es ≠ "" →
      dec es = some dOut →
      dOut.errorName = "FailedCallWithMessage" →
      dOut.args = some (a0 :: rest) →
      truthy a0 = true →
      decJs dec a0 = some nd →
      (handleError dec (.viemErr err)).message = "Contract reverted: " ++ nd.errorName ∧
        uDecodedError (handleError dec (.viemErr err)) = some dOut ∧
        uNested (handleError dec (.viemErr err)) = some
          [ { ntype := "contract"
              nmessage := jsOr nd.errorName "Unknown nested error"
              ndecodedError := some nd } ]) ∧
    (∀ (dec : String → Option DecodedError) (err : ViemError) (c : ViemNode)
        (es : String) (dOut : DecodedError) (a0 : JsValue) (rest : List JsValue),
      err.nodes.find? isHttpNode = none →
      err.nodes.find? isRpcNode = none →
      err.nodes.find? isContractNode = some c →
      c.reason = none →
      c.rdata = some (.jsStr es) →
      es ≠ "" →
      dec es = some dOut →
      dOut.errorName = "FailedCallWithMessage" →
      dOut.args = some (a0 :: rest) →
      truthy a0 = true →
      decJs dec a0 = none →
      (handleError dec (.viemErr err)).message = "Contract reverted: " ++ dOut.errorName ∧
        uDecodedError (handleError dec (.viemErr err)) = some dOut ∧
        uNested (handleError dec (.viemErr err)) = none) := by
  refine ⟨?_, ?_, ?_, ?_⟩
  · intro dec err r s s0 dOut inner rest hh hr hst hne hgt hdec hname hargs h0x hinner
    have hun := unwrapRevert_fcwm_inner dec (extractRevert dec r.rdata) s s0 dOut inner rest
      hst hne hgt hdec hname hargs h0x hinner
    have heq : handleError dec (.viemErr err) =
        { type := .contract
          message := "Transaction reverted: " ++ jsOr inner.errorName "Unknown contract error" ++
            (if decide ((inner.args.getD []).length > 0) then
              " (" ++ joinArgs (inner.args.getD []) ++ ")" else "")
          details := some
            { selector := some (jsSlice10 s)
              data := some s
              decodedError := some inner
              rpcError := some { code := r.code, message := r.message, data := r.rdata } } } := by
      show handleViemError dec err = _
      rw [handleViemError_rpc_eq dec err r hh hr,
        rpcBranch_contract_eq dec r inner s hst hun hne]
    rw [heq]
    exact ⟨rfl, rfl, rfl⟩
  · intro dec err r s s0 dOut rest hh hr hst hne hgt hdec hname hargs h0x hinner
    have hun := unwrapRevert_fcwm_noinner dec (extractRevert dec r.rdata) s s0 dOut rest
      hst hne hgt hdec hname hargs h0x hinner
    have heq := rpcBranch_contract_eq dec r dOut s hst hun hne
    have heq2 : handleError dec (.viemErr err) = rpcBranch dec r :=
      handleViemError_rpc_eq dec err r hh hr
    rw [heq2, heq]
    exact ⟨rfl, rfl⟩
  · intro dec err c es dOut nd a0 rest hh hrn hc hreason hdata hnes hdecE hname hargs htr
      hinner
    have hdc := decodeContractError_fcwm_inner dec c es dOut nd a0 rest hreason hdata hnes
      hdecE hname hargs htr hinner
    have heq := handleViemError_contract_eq dec err c hh hrn hc
    rw [hdc] at heq
    have heq2 : handleError dec (.viemErr err) = handleViemError dec err := rfl
    rw [heq2, heq]
    exact ⟨rfl, rfl, rfl⟩
  · intro dec err c es dOut a0 rest hh hrn hc hreason hdata hnes hdecE hname hargs htr
      hinner
    have hdc := decodeContractError_fcwm_noinner dec c es dOut a0 rest hreason hdata hnes
      hdecE hname hargs htr hinner
    have heq := handleViemError_contract_eq dec err c hh hrn hc
    rw [hdc] at heq
    have heq2 : handleError dec (.viemErr err) = handleViemError dec err := rfl
    rw [heq2, heq]
    exact ⟨rfl, rfl, rfl⟩

/-- C1 counterexample: an RPC failure whose revert bytes decode to
`FailedCallWithMessage` wrapping a decodable `InnerError(42)` — exactly the
claimed scenario — stores the *inner* decoded error in `details.decodedError`;
the outer wrapper is not retained there. -/
theorem c1_counterexample :
    decDemo demoOuterHex = some outerDecoded ∧
      outerDecoded.errorName = "FailedCallWithMessage" ∧
      decDemo demoInnerHex = some innerDecoded ∧
      (handleError decDemo (.viemErr demoWrappedRpcErr)).type = .contract ∧
      uDecodedError (handleError decDemo (.viemErr demoWrappedRpcErr)) = some innerDecoded ∧
      uDecodedError (handleError decDemo (.viemErr demoWrappedRpcErr)) ≠ some outerDecoded := by
  refine ⟨by decide, by decide, by decide, by decide, by decide, by decide⟩

/-- C1 witness: the amended behavior at concrete inputs — the RPC branch yields
the inner error as the effective (and stored) decoded error, while the
contract-revert branch keeps the wrapper in `decodedError` and reports the
inner error in `nestedErrors`. -/
theorem c1_witness :
    (uDecodedError (handleError decDemo (.viemErr demoWrappedRpcErr)) = some innerDecoded ∧
      (handleError decDemo (.viemErr demoWrappedRpcErr)).message =
        "Transaction reverted: " ++ jsOr innerDecoded.errorName "Unknown contract error" ++
          (if decide ((innerDecoded.args.getD []).length > 0) then
            " (" ++ joinArgs (innerDecoded.args.getD []) ++ ")" else "")) ∧
    ((handleError decDemo (.viemErr demoContractErr)).message =
        "Contract reverted: " ++ innerDecoded.errorName ∧
      uDecodedError (handleError decDemo (.viemErr demoContractErr)) = some outerDecoded ∧
      uNested (handleError decDemo (.viemErr demoContractErr)) = some
        [ { ntype := "contract"
            nmessage := jsOr innerDecoded.errorName "Unknown nested error"
            ndecodedError := some innerDecoded } ]) := by
  constructor
  · have h := c1_amended_wrapper_unwrap.1 decDemo demoWrappedRpcErr
      { kind := .rpcK, message := "rpc msg", shortMessage := "rpc short", code := 3,
        rdata := some (.jsObjData (.jsStr demoOuterHex)) }
      demoOuterHex demoInnerHex outerDecoded innerDecoded []
      (by decide) (by decide) (by decide) (by decide) (by decide) (by decide) (by decide)
      (by decide) (by decide) (by decide)
    exact ⟨h.2.1, h.2.2⟩
  · exact c1_amended_wrapper_unwrap.2.2.1 decDemo demoContractErr
      { kind := .contractK, reason := none, rdata := some (.jsStr demoOuterHex) }
      demoOuterHex outerDecoded innerDecoded (.jsStr demoInnerHex) []
      (by decide) (by decide) (by decide) (by decide) (by decide) (by decide) (by decide)
      (by decide) (by decide) (by decide) (by decide)
